import Mathlib

/-!  Shallow embedding of the core of the `blaze` filesystem search engine
(crates/engine of the repository), translated from the Rust source, together
with proofs about the embedded definitions.

Modelling conventions, used throughout:

* Machine integers (`u8`, `u16`, `u32`, `u64`) are modelled as `Nat`; where
  overflow or saturation matters the source operation is reproduced
  explicitly (e.g. `saturating_mul` below).
* Byte strings (`&str` / `&[u8]` / `String` in the source) are modelled as
  `List Nat` of byte values.  All byte-level operations of the source
  (`find`, slicing, `is_ascii_*`) translate directly.  The source's
  Unicode-aware `char::is_whitespace` and `str::to_lowercase` are modelled
  at the ASCII level (`A..Z` ↦ `a..z`, ASCII whitespace); the claims proved
  here do not depend on the non-ASCII behaviour of those two functions.
* Rust `HashMap`s that are only iterated after a sort by their (unique) keys
  are modelled as association lists in insertion order.
* A Rust panic (out-of-bounds slice index) and a potentially diverging loop
  are modelled with `Option`: `none` is "the source does not return".
-/

namespace Blaze

/-! ### Trigram primitive (`crates/engine/src/trigram.rs`) -/

/-- `Trigram::from_bytes`: pack three bytes, low byte first.  The source
computes `b0 | (b1 << 8) | (b2 << 16)`; on byte values (`< 256`) this
coincides with the arithmetic form below. -/
def trigramFromBytes (b0 b1 b2 : Nat) : Nat :=
  b0 + 256 * b1 + 65536 * b2

/-- `ascii_fold`: ASCII `A..=Z` folds to `a..=z`, all other bytes unchanged. -/
def asciiFold (b : Nat) : Nat :=
  if 65 ≤ b ∧ b ≤ 90 then b + 32 else b

/-- `normalize_for_trigram_bytes`. -/
def normalizeForTrigramBytes (input : List Nat) : List Nat :=
  input.map asciiFold

/-- The sliding 3-byte windows of `build_trigrams_from_normalized`
(`for win in normalized.windows(3)`), already packed. -/
def trigramWindows : List Nat → List Nat
  | b0 :: b1 :: b2 :: rest => trigramFromBytes b0 b1 b2 :: trigramWindows (b1 :: b2 :: rest)
  | _ => []

/-- Rust `Vec::dedup`: remove consecutive duplicates. -/
def dedupAdjacent : List Nat → List Nat
  | [] => []
  | [a] => [a]
  | a :: b :: rest =>
      if a = b then dedupAdjacent (b :: rest) else a :: dedupAdjacent (b :: rest)

/-- `tris.sort_unstable()` on integer values: the sorted permutation of a
list of naturals is unique, so any comparison sort is extensionally the
source's sort.  We use insertion sort because it reduces definitionally. -/
def sortNat (l : List Nat) : List Nat :=
  List.insertionSort (· ≤ ·) l

/-- `build_trigrams_from_normalized`: all length-3 sliding windows, then
sort and dedup; fewer than 3 bytes yields the empty set. -/
def buildTrigramsFromNormalized (normalized : List Nat) : List Nat :=
  if normalized.length < 3 then []
  else dedupAdjacent (sortNat (trigramWindows normalized))

/-- `build_trigrams_for_bytes` (also `build_trigrams_for_string`, which
normalizes the UTF-8 bytes of its argument the same way). -/
def build_trigrams_for_bytes (bytes : List Nat) : List Nat :=
  buildTrigramsFromNormalized (normalizeForTrigramBytes bytes)

/-- `build_trigrams_for_string` on the string's UTF-8 bytes. -/
def build_trigrams_for_string (s : List Nat) : List Nat :=
  build_trigrams_for_bytes s

/-- The stride-3 positions collected by the main loop of
`build_query_trigrams` (`while i + 3 <= bytes.len`), as packed trigrams of
the normalized byte list starting at offset `i`. -/
def queryStrideWindows : List Nat → List Nat
  | b0 :: b1 :: b2 :: rest => trigramFromBytes b0 b1 b2 :: queryStrideWindows rest
  | _ => []

/-- `build_query_trigrams`: stride-3 trigrams plus the final tail trigram
when the stride misses the end, then sort and dedup. -/
def build_query_trigrams (text : List Nat) : List Nat :=
  let bytes := normalizeForTrigramBytes text
  if bytes.length < 3 then []
  else
    let tris := queryStrideWindows bytes
    let tris :=
      if bytes.length > 3 ∧ bytes.length % 3 ≠ 0 then
        let lastPos := bytes.length - 3
        let lastTri := trigramFromBytes (bytes.getD lastPos 0)
          (bytes.getD (lastPos + 1) 0) (bytes.getD (lastPos + 2) 0)
        if tris.getLast? ≠ some lastTri then tris ++ [lastTri] else tris
      else tris
    dedupAdjacent (sortNat tris)

/-! ### Set algebra (`crates/engine/src/eval/helpers.rs`) -/

/-- Rust `slice::binary_search` on a `u32` slice, the exact stdlib
algorithm (halving on `mid = left + (right - left) / 2`, returning
`Ok(mid)` on the first equal probe, `Err(left)` otherwise).  `Sum.inl` is
`Ok`, `Sum.inr` is `Err`.  The fuel argument only bounds the loop; the
span `right - left` shrinks every iteration, so `l.length + 1` fuel never
runs out (with exhausted fuel the loop would exit exactly as when
`left ≥ right`, so the model is total and faithful). -/
def binarySearchGo (l : List Nat) (x : Nat) : Nat → Nat → Nat → Sum Nat Nat
  | 0, left, _ => Sum.inr left
  | fuel + 1, left, right =>
    if left < right then
      let mid := left + (right - left) / 2
      let v := l.getD mid 0
      if v < x then binarySearchGo l x fuel (mid + 1) right
      else if x < v then binarySearchGo l x fuel left mid
      else Sum.inl mid
    else Sum.inr left

/-- `slice::binary_search(&x)` over the whole slice. -/
def binarySearch (l : List Nat) (x : Nat) : Sum Nat Nat :=
  binarySearchGo l x (l.length + 1) 0 l.length

/-- The exponential-search loop of `galloping_intersect_into`
(`while large_idx + step < large.len() && large[large_idx + step] < elem`).
Returns the final `(large_idx, step)`.  `large_idx` grows by at least one
per iteration while staying below `large.length`, so `large.length + 1`
fuel never runs out. -/
def gallopStep (large : List Nat) (elem : Nat) : Nat → Nat → Nat → Nat × Nat
  | 0, largeIdx, step => (largeIdx, step)
  | fuel + 1, largeIdx, step =>
    if largeIdx + step < large.length ∧ large.getD (largeIdx + step) 0 < elem then
      gallopStep large elem fuel (largeIdx + step) (step * 2)
    else (largeIdx, step)

/-- Body of `galloping_intersect_into`: iterate over `small`, gallop in
`large`, binary-search the window `large[large_idx..search_end]`, push on
`Ok`, advance `large_idx`, break once `large_idx >= large.len()`. -/
def gallopingLoop (large : List Nat) : List Nat → Nat → List Nat
  | [], _ => []
  | elem :: rest, largeIdx =>
    let p := gallopStep large elem (large.length + 1) largeIdx 1
    let searchEnd := min (p.1 + p.2 + 1) large.length
    let window := (large.drop p.1).take (searchEnd - p.1)
    match binarySearch window elem with
    | Sum.inl offset =>
        let li := p.1 + offset + 1
        elem :: (if li ≥ large.length then [] else gallopingLoop large rest li)
    | Sum.inr offset =>
        let li := p.1 + offset
        if li ≥ large.length then [] else gallopingLoop large rest li

/-- `galloping_intersect_into(small, large, out)` with `out` as the result. -/
def galloping_intersect (small large : List Nat) : List Nat :=
  gallopingLoop large small 0

/-- The two-pointer loop of `intersect_sorted_into`; the dropped prefixes
stand for the cursors `i` and `j`.  The fuel argument makes the recursion
structural; `a.length + b.length` fuel is exact, as every iteration
consumes at least one element. -/
def intersectSortedGo : Nat → List Nat → List Nat → List Nat
  | 0, _, _ => []
  | _ + 1, [], _ => []
  | _ + 1, _ :: _, [] => []
  | fuel + 1, x :: xs, y :: ys =>
    if x < y then intersectSortedGo fuel xs (y :: ys)
    else if y < x then intersectSortedGo fuel (x :: xs) ys
    else x :: intersectSortedGo fuel xs ys

/-- `intersect_sorted_into` / the owning wrapper `intersect_sorted`. -/
def intersect_sorted (a b : List Nat) : List Nat :=
  if a = [] ∨ b = [] then [] else intersectSortedGo (a.length + b.length) a b

/-- `intersect_adaptive_into` / the owning wrapper `intersect_adaptive`:
empty operands short-circuit; heavily skewed sizes (`min·8 < max`) take
the galloping branch driven by the smaller slice, otherwise the linear
merge runs on `(a, b)` in their original order. -/
def intersect_adaptive (a b : List Nat) : List Nat :=
  if a = [] ∨ b = [] then []
  else
    let sl := if a.length < b.length then (a, b) else (b, a)
    if sl.1.length * 8 < sl.2.length then galloping_intersect sl.1 sl.2
    else intersect_sorted a b

/-- The merge loop of `union_sorted` (fueled like `intersectSortedGo`);
the trailing `extend_from_slice` calls are the final two cases. -/
def unionSortedGo : Nat → List Nat → List Nat → List Nat
  | 0, _, _ => []
  | _ + 1, [], b => b
  | _ + 1, a, [] => a
  | fuel + 1, x :: xs, y :: ys =>
    if x < y then x :: unionSortedGo fuel xs (y :: ys)
    else if y < x then y :: unionSortedGo fuel (x :: xs) ys
    else x :: unionSortedGo fuel xs ys

/-- `union_sorted`: linear merge keeping one copy of common heads. -/
def union_sorted (a b : List Nat) : List Nat :=
  unionSortedGo (a.length + b.length) a b

/-- The merge loop of `diff_sorted` (fueled); the trailing
`extend_from_slice(&base[i..])` is the `a, []` case. -/
def diffSortedGo : Nat → List Nat → List Nat → List Nat
  | 0, _, _ => []
  | _ + 1, [], _ => []
  | _ + 1, a, [] => a
  | fuel + 1, x :: xs, y :: ys =>
    if x < y then x :: diffSortedGo fuel xs (y :: ys)
    else if y < x then diffSortedGo fuel (x :: xs) ys
    else diffSortedGo fuel xs ys

/-- `diff_sorted`: keep elements of `base` not present in `sub`. -/
def diff_sorted (base sub : List Nat) : List Nat :=
  diffSortedGo (base.length + sub.length) base sub

/-! ### Byte-level helpers shared by the DSL embedding

The query pipeline operates on `&str` values; we model them as their
UTF-8 byte lists.  The source's `char::is_whitespace` also skips a few
non-ASCII whitespace code points; we model the ASCII subset (the claims
proved here never hinge on non-ASCII whitespace). -/

def isAsciiDigitB (b : Nat) : Bool := 48 ≤ b ∧ b ≤ 57

def isAsciiUppercaseB (b : Nat) : Bool := 65 ≤ b ∧ b ≤ 90

def isAsciiLowercaseB (b : Nat) : Bool := 97 ≤ b ∧ b ≤ 122

def isAsciiAlphabeticB (b : Nat) : Bool := isAsciiUppercaseB b || isAsciiLowercaseB b

/-- `u8::to_ascii_lowercase`. -/
def toAsciiLowerB (b : Nat) : Nat := if isAsciiUppercaseB b then b + 32 else b

/-- `str::to_ascii_lowercase` on byte lists. -/
def toAsciiLowerBytes (s : List Nat) : List Nat := s.map toAsciiLowerB

def isWhitespaceB (b : Nat) : Bool :=
  b = 32 || b = 9 || b = 10 || b = 13 || b = 11 || b = 12

/-- `str::trim` (ASCII whitespace model). -/
def trimBytes (s : List Nat) : List Nat :=
  (((s.dropWhile isWhitespaceB).reverse).dropWhile isWhitespaceB).reverse

/-- `str::parse::<u64>`: optional `+` sign, at least one ASCII digit,
rejecting values outside `u64` range. -/
def parseU64? (s : List Nat) : Option Nat :=
  let digits := if s.head? = some 43 then s.tail else s
  if digits ≠ [] ∧ digits.all isAsciiDigitB then
    let v := digits.foldl (fun acc d => acc * 10 + (d - 48)) 0
    if v < 2 ^ 64 then some v else none
  else none

/-- `str::parse::<i64>`: optional sign, digits, `i64` range check. -/
def parseI64? (s : List Nat) : Option Int :=
  let neg := s.head? = some 45
  let digits := if s.head? = some 43 ∨ s.head? = some 45 then s.tail else s
  if digits ≠ [] ∧ digits.all isAsciiDigitB then
    let v : Nat := digits.foldl (fun acc d => acc * 10 + (d - 48)) 0
    if neg then
      if v ≤ 2 ^ 63 then some (-(v : Int)) else none
    else
      if v < 2 ^ 63 then some (v : Int) else none
  else none

/-- `List.isPrefixOf`-style check used to model `str::starts_with`. -/
def startsWithBytes (s pre : List Nat) : Bool :=
  decide (pre <+: s)

/-- `str::strip_prefix`: drop the found leading pattern. -/
def stripLeading? (s pre : List Nat) : Option (List Nat) :=
  if startsWithBytes s pre then some (s.drop pre.length) else none

/-! ### Query AST (`crates/engine/src/dsl/ast.rs`) -/

inductive Field where
  | Ext | Size | Created | Modified
  deriving DecidableEq, Repr

inductive CmpOp where
  | Eq | Ne | Gt | Ge | Lt | Le
  deriving DecidableEq, Repr

/-- `TimeMacro` in the source (renamed here). -/
inductive TimeKeyword where
  | Today | Yesterday | ThisWeek | LastWeek | ThisMonth | LastMonth
  deriving DecidableEq, Repr

inductive RelativeTime where
  | Days (n : Int) | Hours (n : Int) | Weeks (n : Int) | Years (n : Int)
  deriving DecidableEq, Repr

/-- `TimeExpr`; an absolute `DateTime<Utc>` is modelled by its Unix
timestamp in seconds (`Absolute`; the only use the evaluator makes of the
value is `.timestamp()`). -/
inductive TimeExpr where
  | Absolute (ts : Int)
  | Relative (rel : RelativeTime)
  | Keyword (mac : TimeKeyword)
  deriving DecidableEq, Repr

inductive Value where
  | Str (s : List Nat)
  | SizeBytes (n : Nat)
  | Time (t : TimeExpr)
  deriving DecidableEq, Repr

structure Predicate where
  field : Field
  op : CmpOp
  value : Value
  deriving DecidableEq, Repr

structure TextTerm where
  text : List Nat
  is_phrase : Bool
  is_glob : Bool
  deriving DecidableEq, Repr

inductive LeafExpr where
  | Text (t : TextTerm)
  | Pred (p : Predicate)
  deriving DecidableEq, Repr

inductive QueryExpr where
  | And (children : List QueryExpr)
  | Or (children : List QueryExpr)
  | Not (inner : QueryExpr)
  | Leaf (l : LeafExpr)
  deriving Repr

structure Query where
  expr : QueryExpr

/-! ### Lexer (`crates/engine/src/dsl/lexer.rs`)

Token spans are omitted: no claim concerns them, and the parser and
predicate layer only ever read `kind` and `lexeme`. -/

inductive TokenKind where
  | Ident | Number | Str | Colon | LParen | RParen
  | And | Or | Not | Gt | Gte | Lt | Lte | Eq | Eof
  deriving DecidableEq, Repr

structure Token where
  kind : TokenKind
  lexeme : List Nat
  deriving DecidableEq, Repr

/-- `is_delimiter`: whitespace, `(`, `)`, `:`, `>`, `<`, `=`, `"`. -/
def isDelimiterB (b : Nat) : Bool :=
  isWhitespaceB b || b = 40 || b = 41 || b = 58 || b = 62 || b = 60 || b = 61 || b = 34

/-- `classify_keyword` (case-insensitive `or` / `and` / `not`). -/
def classifyKeyword (lexeme : List Nat) : TokenKind :=
  let lower := toAsciiLowerBytes lexeme
  if lower = [111, 114] then TokenKind.Or
  else if lower = [97, 110, 100] then TokenKind.And
  else if lower = [110, 111, 116] then TokenKind.Not
  else TokenKind.Ident

/-- `scan_word_or_number`, given the first byte `c` and the remaining
input: consume up to the next delimiter; all-digits runs are `Number`,
others go through keyword classification.  Returns the token and the
unconsumed input. -/
def scanWordOrNumber (c : Nat) (rest : List Nat) : Token × List Nat :=
  let more := rest.takeWhile (fun b => ¬ isDelimiterB b)
  let lexeme := c :: more
  let kind :=
    if lexeme.all isAsciiDigitB then TokenKind.Number else classifyKeyword lexeme
  (⟨kind, lexeme⟩, rest.dropWhile (fun b => ¬ isDelimiterB b))

/-- The token loop of `Lexer::next_token` / `lex`, fueled (every
iteration consumes at least one input byte, so `input.length + 1` fuel is
enough; the fuel-exhausted case is unreachable from `lexBytes`). -/
def lexGo : Nat → List Nat → List Token
  | 0, _ => [⟨TokenKind.Eof, []⟩]
  | _ + 1, [] => [⟨TokenKind.Eof, []⟩]
  | fuel + 1, c :: rest =>
    if isWhitespaceB c then lexGo fuel rest
    else if c = 40 then ⟨TokenKind.LParen, [c]⟩ :: lexGo fuel rest
    else if c = 41 then ⟨TokenKind.RParen, [c]⟩ :: lexGo fuel rest
    else if c = 58 then ⟨TokenKind.Colon, [c]⟩ :: lexGo fuel rest
    else if c = 61 then ⟨TokenKind.Eq, [c]⟩ :: lexGo fuel rest
    else if c = 62 then
      match rest with
      | 61 :: rest2 => ⟨TokenKind.Gte, [62, 61]⟩ :: lexGo fuel rest2
      | _ => ⟨TokenKind.Gt, [62]⟩ :: lexGo fuel rest
    else if c = 60 then
      match rest with
      | 61 :: rest2 => ⟨TokenKind.Lte, [60, 61]⟩ :: lexGo fuel rest2
      | _ => ⟨TokenKind.Lt, [60]⟩ :: lexGo fuel rest
    else if c = 34 then
      -- NOTE: no escape processing; the next `"` terminates; EOF closes an
      -- unterminated string.
      let content := rest.takeWhile (fun b => b ≠ 34)
      let after := rest.dropWhile (fun b => b ≠ 34)
      match after with
      | _ :: rest2 => ⟨TokenKind.Str, content⟩ :: lexGo fuel rest2
      | [] => ⟨TokenKind.Str, content⟩ :: lexGo fuel []
    else if c = 124 then
      match rest with
      | 124 :: rest2 => ⟨TokenKind.Or, [124, 124]⟩ :: lexGo fuel rest2
      | _ =>
        let s := scanWordOrNumber c rest
        s.1 :: lexGo fuel s.2
    else
      let s := scanWordOrNumber c rest
      s.1 :: lexGo fuel s.2

/-- `lex`. -/
def lexBytes (input : List Nat) : List Token :=
  lexGo (input.length + 1) input

/-! ### Predicate value parsing (`crates/engine/src/dsl/predicates.rs`) -/

/-- UTF-8 bytes of an ASCII string literal (helper for the embedding;
all literals below are ASCII, where code points equal bytes). -/
def strB (s : String) : List Nat := s.toList.map Char.toNat

/-- `join_lexemes`: concatenate the lexemes with no separator. -/
def join_lexemes (tokens : List Token) : List Nat :=
  (tokens.map Token.lexeme).flatten

/-- `parse_ext_predicate`. -/
def parse_ext_predicate (valueTokens : List Token) : Option Predicate :=
  match valueTokens.head? with
  | none => none
  | some tok =>
    let ext0 := trimBytes tok.lexeme
    let ext := match stripLeading? ext0 [46] with
      | some stripped => stripped
      | none => ext0
    if ext = [] then none
    else some ⟨Field.Ext, CmpOp.Eq, Value.Str (toAsciiLowerBytes ext)⟩

/-- `extract_cmp_op`: try `>=`, `<=`, `>`, `<`, `=`, `!=` in that order;
default `(Eq, s)`. -/
def extract_cmp_op (s : List Nat) : CmpOp × List Nat :=
  if startsWithBytes s [62, 61] then (CmpOp.Ge, s.drop 2)
  else if startsWithBytes s [60, 61] then (CmpOp.Le, s.drop 2)
  else if startsWithBytes s [62] then (CmpOp.Gt, s.drop 1)
  else if startsWithBytes s [60] then (CmpOp.Lt, s.drop 1)
  else if startsWithBytes s [61] then (CmpOp.Eq, s.drop 1)
  else if startsWithBytes s [33, 61] then (CmpOp.Ne, s.drop 2)
  else (CmpOp.Eq, s)

/-- `parse_time_macro` in the source. -/
def parseTimeKeyword (s : List Nat) : Option TimeKeyword :=
  if s = strB "today" then some TimeKeyword.Today
  else if s = strB "yesterday" then some TimeKeyword.Yesterday
  else if s = strB "this_week" ∨ s = strB "thisweek" then some TimeKeyword.ThisWeek
  else if s = strB "last_week" ∨ s = strB "lastweek" then some TimeKeyword.LastWeek
  else if s = strB "this_month" ∨ s = strB "thismonth" then some TimeKeyword.ThisMonth
  else if s = strB "last_month" ∨ s = strB "lastmonth" then some TimeKeyword.LastMonth
  else none

def time_pred (field : Field) (op : CmpOp) (expr : TimeExpr) : Predicate :=
  ⟨field, op, Value.Time expr⟩

/-- `parse_relative_time_literal` (`-7d`, `2w`, `1y`, …). -/
def parse_relative_time_literal (s0 : List Nat) : Option RelativeTime :=
  let s := trimBytes s0
  if s = [] then none
  else
    let sr : Int × List Nat :=
      match stripLeading? s [45] with
      | some r => (-1, r)
      | none => (1, s)
    if sr.2.length < 2 then none
    else
      let numStr := sr.2.take (sr.2.length - 1)
      let unitStr := sr.2.drop (sr.2.length - 1)
      match parseI64? (trimBytes numStr) with
      | none => none
      | some n =>
        let n := n * sr.1
        let unit := toAsciiLowerBytes unitStr
        if unit = [100] then some (RelativeTime.Days n)
        else if unit = [104] then some (RelativeTime.Hours n)
        else if unit = [119] then some (RelativeTime.Weeks n)
        else if unit = [121] then some (RelativeTime.Years n)
        else none

def isLeapYear (y : Int) : Bool := (y % 4 = 0 ∧ y % 100 ≠ 0) ∨ y % 400 = 0

def daysInMonth (y : Int) (m : Nat) : Nat :=
  if m = 2 then (if isLeapYear y then 29 else 28)
  else if m = 4 ∨ m = 6 ∨ m = 9 ∨ m = 11 then 30
  else 31

/-- Days from the Unix epoch of a proleptic-Gregorian civil date
(standard civil-calendar algorithm; `/` on `Int` with positive divisors
is floor division, as required). -/
def daysFromCivil (y : Int) (m d : Nat) : Int :=
  let y' : Int := if m ≤ 2 then y - 1 else y
  let era : Int := y' / 400
  let yoe : Int := y' - era * 400
  let mp : Int := ((m : Int) + 9) % 12
  let doy : Int := (153 * mp + 2) / 5 + (d : Int) - 1
  let doe : Int := yoe * 365 + yoe / 4 - yoe / 100 + doy
  era * 146097 + doe - 719468

/-- `parse_ymd_date`: `chrono::NaiveDate::parse_from_str(s, "%Y-%m-%d")`
then midnight UTC, modelled as the Unix timestamp.  The model accepts
`digits '-' digits '-' digits` with a valid Gregorian month/day
(signed/overlong years that chrono would also reject at the fringes are
not modelled; no claim depends on them). -/
def parse_ymd_date (s : List Nat) : Option Int :=
  match s.splitOn 45 with
  | [ys, ms, ds] =>
    if ys ≠ [] ∧ ms ≠ [] ∧ ds ≠ [] ∧ (ys ++ ms ++ ds).all isAsciiDigitB ∧
        ys.length ≤ 4 ∧ ms.length ≤ 2 ∧ ds.length ≤ 2 then
      let y : Int := (ys.foldl (fun acc b => acc * 10 + (b - 48)) 0 : Nat)
      let m : Nat := ms.foldl (fun acc b => acc * 10 + (b - 48)) 0
      let d : Nat := ds.foldl (fun acc b => acc * 10 + (b - 48)) 0
      if 1 ≤ m ∧ m ≤ 12 ∧ 1 ≤ d ∧ d ≤ daysInMonth y m then
        some (daysFromCivil y m d * 86400)
      else none
    else none
  | _ => none

/-- `parse_time_field_predicate` (shared by `created` and `modified`). -/
def parse_time_field_predicate (field : Field) (valueTokens : List Token) :
    Option Predicate :=
  if valueTokens = [] then none
  else
    let single : Option Predicate :=
      if valueTokens.length = 1 then
        match valueTokens.head? with
        | none => none
        | some tok =>
          let kw : Option TimeKeyword :=
            if tok.kind = TokenKind.Ident then
              parseTimeKeyword (toAsciiLowerBytes tok.lexeme)
            else none
          match kw with
          | some tm => some (time_pred field CmpOp.Ge (TimeExpr.Keyword tm))
          | none =>
            match parse_relative_time_literal (trimBytes tok.lexeme) with
            | some rt => some (time_pred field CmpOp.Ge (TimeExpr.Relative rt))
            | none => none
      else none
    match single with
    | some p => some p
    | none =>
      let s := trimBytes (join_lexemes valueTokens)
      let opRest := extract_cmp_op s
      let op := if opRest.2 = s then CmpOp.Ge else opRest.1
      let rest := trimBytes opRest.2
      match parse_ymd_date rest with
      | some dt => some (time_pred field op (TimeExpr.Absolute dt))
      | none =>
        match parse_relative_time_literal rest with
        | some rt => some (time_pred field op (TimeExpr.Relative rt))
        | none => none

/-- `is_bits_unit`: smartcase — bits iff the unit ends in lowercase `b`,
has length `> 1`, and its first byte is ASCII uppercase. -/
def is_bits_unit (unit : List Nat) : Bool :=
  match unit.getLast? with
  | none => false
  | some last => last = 98 ∧ unit.length > 1 ∧ isAsciiUppercaseB (unit.headD 0)

/-- `u64::saturating_mul`. -/
def saturatingMulU64 (a b : Nat) : Nat := min (a * b) (2 ^ 64 - 1)

/-- `parse_size`: split the trailing alphabetic run off as the unit,
parse the number as `u64`, apply the 1024-based prefix multiplier
(saturating) and divide by 8 when the smartcase says bits. -/
def parse_size (s0 : List Nat) : Option Nat :=
  let s := trimBytes s0
  if s = [] then none
  else
    let unitBytes := ((s.reverse).takeWhile isAsciiAlphabeticB).reverse
    let numBytes := s.take (s.length - unitBytes.length)
    match parseU64? (trimBytes numBytes) with
    | none => none
    | some num =>
      if unitBytes = [] then some num
      else
        let isBits := is_bits_unit unitBytes
        let last := unitBytes.getLastD 0
        let prefixBytes :=
          if last = 98 ∨ last = 66 then unitBytes.take (unitBytes.length - 1)
          else unitBytes
        let lower := toAsciiLowerBytes prefixBytes
        let factor? : Option Nat :=
          if lower = [] then some 1
          else if lower = [107] ∨ lower = [107, 105] then some 1024
          else if lower = [109] ∨ lower = [109, 105] then some (1024 ^ 2)
          else if lower = [103] ∨ lower = [103, 105] then some (1024 ^ 3)
          else if lower = [116] ∨ lower = [116, 105] then some (1024 ^ 4)
          else none
        match factor? with
        | none => none
        | some factor =>
          let value := saturatingMulU64 num factor
          if isBits then some (value / 8) else some value

/-- `parse_size_predicate`. -/
def parse_size_predicate (valueTokens : List Token) : Option Predicate :=
  if valueTokens = [] then none
  else
    let s := trimBytes (join_lexemes valueTokens)
    if s = [] then none
    else
      let opRest := extract_cmp_op s
      match parse_size (trimBytes opRest.2) with
      | none => none
      | some bytes => some ⟨Field.Size, opRest.1, Value.SizeBytes bytes⟩

/-- `parse_field_predicate`. -/
def parse_field_predicate (fieldName : List Nat) (valueTokens : List Token) :
    Option Predicate :=
  let lower := toAsciiLowerBytes fieldName
  if lower = strB "created" then parse_time_field_predicate Field.Created valueTokens
  else if lower = strB "ext" then parse_ext_predicate valueTokens
  else if lower = strB "modified" then parse_time_field_predicate Field.Modified valueTokens
  else if lower = strB "size" then parse_size_predicate valueTokens
  else none

/-! ### Parser (`crates/engine/src/dsl/parser.rs`) -/

inductive RawAtom where
  | FieldAtom (fieldName : List Nat) (valueTokens : List Token)
  | Bare (tokens : List Token)
  deriving Repr

def eofToken : Token := ⟨TokenKind.Eof, []⟩

/-- `Parser::peek`. -/
def peekKind (toks : List Token) : TokenKind :=
  ((toks.head?).map Token.kind).getD TokenKind.Eof

/-- `Parser::advance`: the current token and the remaining suffix. -/
def advanceTok (toks : List Token) : Token × List Token :=
  match toks with
  | [] => (eofToken, [])
  | t :: rest => (t, rest)

/-- `true_expr`: the neutral `And([])`. -/
def trueExpr : QueryExpr := QueryExpr.And []

/-- `text_from_tokens`: join lexemes with single spaces; `is_phrase` iff
the first token is a string; `is_glob` iff the text contains `*` or `?`. -/
def text_from_tokens (tokens : List Token) : TextTerm :=
  match tokens with
  | [] => ⟨[], false, false⟩
  | first :: _ =>
    let text := List.intercalate [32] (tokens.map Token.lexeme)
    { text := text
      is_phrase := first.kind = TokenKind.Str
      is_glob := text.contains 42 || text.contains 63 }

/-- `text_from_field_atom`: rebuild the `field:value` shape. -/
def text_from_field_atom (fieldName : List Nat) (valueTokens : List Token) : TextTerm :=
  let s := fieldName ++ [58] ++ List.intercalate [32] (valueTokens.map Token.lexeme)
  { text := s
    is_phrase := false
    is_glob := s.contains 42 || s.contains 63 }

/-- `resolve_atom`. -/
def resolve_atom : RawAtom → LeafExpr
  | RawAtom.FieldAtom fieldName valueTokens =>
    match parse_field_predicate (toAsciiLowerBytes fieldName) valueTokens with
    | some p => LeafExpr.Pred p
    | none => LeafExpr.Text (text_from_field_atom fieldName valueTokens)
  | RawAtom.Bare tokens => LeafExpr.Text (text_from_tokens tokens)

/-- `Parser::parse_raw_atom`: on `IDENT ':'`, consume an optional
comparison token and one optional value token; otherwise a bare atom. -/
def parse_raw_atom (toks : List Token) : RawAtom × List Token :=
  let nextKind := (((toks.drop 1).head?).map Token.kind).getD TokenKind.Eof
  if peekKind toks = TokenKind.Ident ∧ nextKind = TokenKind.Colon then
    let fieldTok := (advanceTok toks).1
    let rest1 := (advanceTok toks).2
    let rest2 := (advanceTok rest1).2
    let step1 : List Token × List Token :=
      if peekKind rest2 = TokenKind.Gt ∨ peekKind rest2 = TokenKind.Lt ∨
          peekKind rest2 = TokenKind.Gte ∨ peekKind rest2 = TokenKind.Lte ∨
          peekKind rest2 = TokenKind.Eq then
        ([(advanceTok rest2).1], (advanceTok rest2).2)
      else ([], rest2)
    let step2 : List Token × List Token :=
      if peekKind step1.2 = TokenKind.Ident ∨ peekKind step1.2 = TokenKind.Number ∨
          peekKind step1.2 = TokenKind.Str then
        (step1.1 ++ [(advanceTok step1.2).1], (advanceTok step1.2).2)
      else step1
    (RawAtom.FieldAtom fieldTok.lexeme step2.1, step2.2)
  else
    (RawAtom.Bare [(advanceTok toks).1], (advanceTok toks).2)

-- The recursive-descent parser, fueled.  Every loop iteration and every
-- `( … )` nesting level consumes at least one token, so the quadratic fuel
-- passed by `parse_query` below never runs out; the fuel-exhausted fallback
-- mirrors the degenerate "neutral true" result.
mutual

def parseOrExpr : Nat → List Token → QueryExpr × List Token
  | 0, toks => (trueExpr, toks)
  | fuel + 1, toks =>
    let first := parseAndExpr fuel toks
    let loop := parseOrLoop fuel [first.1] first.2
    match loop.1 with
    | [single] => (single, loop.2)
    | ors => (QueryExpr.Or ors, loop.2)

def parseOrLoop : Nat → List QueryExpr → List Token → List QueryExpr × List Token
  | 0, acc, toks => (acc, toks)
  | fuel + 1, acc, toks =>
    if peekKind toks = TokenKind.Or then
      let rest := (advanceTok toks).2
      let rhs := parseAndExpr fuel rest
      parseOrLoop fuel (acc ++ [rhs.1]) rhs.2
    else (acc, toks)

def parseAndExpr : Nat → List Token → QueryExpr × List Token
  | 0, toks => (trueExpr, toks)
  | fuel + 1, toks =>
    let first := parseNotExpr fuel toks
    let loop := parseAndLoop fuel [first.1] first.2
    match loop.1 with
    | [single] => (single, loop.2)
    | terms => (QueryExpr.And terms, loop.2)

def parseAndLoop : Nat → List QueryExpr → List Token → List QueryExpr × List Token
  | 0, acc, toks => (acc, toks)
  | fuel + 1, acc, toks =>
    match peekKind toks with
    | TokenKind.Or => (acc, toks)
    | TokenKind.RParen => (acc, toks)
    | TokenKind.Eof => (acc, toks)
    | _ =>
      let toks1 := if peekKind toks = TokenKind.And then (advanceTok toks).2 else toks
      let nxt := parseNotExpr fuel toks1
      parseAndLoop fuel (acc ++ [nxt.1]) nxt.2

def parseNotExpr : Nat → List Token → QueryExpr × List Token
  | 0, toks => (trueExpr, toks)
  | fuel + 1, toks =>
    let negCount := (toks.takeWhile (fun t => t.kind = TokenKind.Not)).length
    let rest := toks.dropWhile (fun t => t.kind = TokenKind.Not)
    let prim := parsePrimary fuel rest
    if negCount % 2 = 1 then (QueryExpr.Not prim.1, prim.2) else prim

def parsePrimary : Nat → List Token → QueryExpr × List Token
  | 0, toks => (trueExpr, toks)
  | fuel + 1, toks =>
    match peekKind toks with
    | TokenKind.LParen =>
      let rest := (advanceTok toks).2
      let inner := parseOrExpr fuel rest
      let rest2 :=
        if peekKind inner.2 = TokenKind.RParen then (advanceTok inner.2).2 else inner.2
      (inner.1, rest2)
    | TokenKind.Eof => (trueExpr, toks)
    | TokenKind.RParen => (trueExpr, toks)
    | TokenKind.Or => (trueExpr, toks)
    | TokenKind.And => (trueExpr, toks)
    | _ =>
      let atom := parse_raw_atom toks
      (QueryExpr.Leaf (resolve_atom atom.1), atom.2)

end

/-- Fuel that the call counting argument above can never exhaust. -/
def parserFuel (tokens : List Token) : Nat :=
  8 * (tokens.length + 2) * (tokens.length + 2)

/-- `parse_query`. -/
def parse_query (input : List Nat) : Query :=
  let tokens := lexBytes input
  if tokens.length = 1 ∧ (tokens.headD eofToken).kind = TokenKind.Eof then
    ⟨trueExpr⟩
  else
    ⟨(parseOrExpr (parserFuel tokens) tokens).1⟩

/-! ### File flags and noise classification
(`crates/engine/src/index/flags.rs`, constants from
`crates/runtime/src/config.rs`, Linux `cfg` branches) -/

def U32MAX : Nat := 2 ^ 32 - 1

/-- `FileFlags` as its component bits. -/
structure FileFlags where
  is_dir : Bool
  is_symlink : Bool
  special : Bool
  hidden : Bool
  excluded_glob : Bool
  excluded_user : Bool
  in_trash : Bool
  deriving DecidableEq, Repr

def FileFlags.empty : FileFlags := ⟨false, false, false, false, false, false, false⟩

/-- `FileFlags::bits`. -/
def FileFlags.bits (f : FileFlags) : Nat :=
  (if f.is_dir then 1 else 0) + (if f.is_symlink then 2 else 0) +
  (if f.special then 4 else 0) + (if f.hidden then 8 else 0) +
  (if f.excluded_glob then 16 else 0) + (if f.excluded_user then 32 else 0) +
  (if f.in_trash then 64 else 0)

/-- `FileFlags::is_default_visible`: no intersection with
`HIDDEN | EXCLUDED_GLOB | EXCLUDED_USER | IN_TRASH | SPECIAL`. -/
def FileFlags.is_default_visible (f : FileFlags) : Bool :=
  ¬ (f.hidden ∨ f.excluded_glob ∨ f.excluded_user ∨ f.in_trash ∨ f.special)

structure NoiseFlags where
  system_dir : Bool
  build_dir : Bool
  cache_dir : Bool
  hashy_seg : Bool
  very_deep : Bool
  app_data_dir : Bool
  log_dir : Bool
  deriving DecidableEq, Repr

def NoiseFlags.empty : NoiseFlags := ⟨false, false, false, false, false, false, false⟩

/-- `NoiseFlags::bits` (bit layout from flags.rs). -/
def NoiseFlags.bits (f : NoiseFlags) : Nat :=
  (if f.system_dir then 1 else 0) + (if f.build_dir then 2 else 0) +
  (if f.cache_dir then 4 else 0) + (if f.hashy_seg then 8 else 0) +
  (if f.very_deep then 16 else 0) + (if f.app_data_dir then 32 else 0) +
  (if f.log_dir then 64 else 0)

def SYSTEM_ROOTS : List (List Nat) :=
  [strB "/usr/", strB "/lib/", strB "/lib64/", strB "/opt/", strB "/snap/",
   strB "/flatpak/", strB "/var/", strB "/etc/", strB "/sys/", strB "/proc/"]

def NOISY_COMPONENTS : List (List Nat) :=
  [strB "node_modules", strB "target", strB "build", strB "dist", strB "out",
   strB ".next", strB ".git", strB ".hg", strB ".svn", strB ".venv", strB "venv",
   strB "site-packages", strB ".tox", strB "vendor", strB ".cargo"]

def CACHE_COMPONENTS : List (List Nat) :=
  [strB ".cache", strB "cache", strB ".gradle", strB ".m2", strB ".npm",
   strB ".pip", strB "caches", strB "__pycache__"]

def LOG_COMPONENTS : List (List Nat) :=
  [strB "logs", strB "log", strB "debug", strB "sessionstore-logs",
   strB "crash-reports", strB "crashreporter", strB "telemetry", strB "diagnostics"]

/-- `is_system_path` (case-sensitive, the non-macOS branch). -/
def is_system_path (path : List Nat) : Bool :=
  SYSTEM_ROOTS.any (fun root => startsWithBytes path root)

def is_noisy_component (comp : List Nat) : Bool := NOISY_COMPONENTS.contains comp

def is_cache_component (comp : List Nat) : Bool := CACHE_COMPONENTS.contains comp

def is_log_component (comp : List Nat) : Bool := LOG_COMPONENTS.contains comp

/-- `is_hidden_app_component`: starts with `.`, excluding `.` and `..`. -/
def is_hidden_app_component (comp : List Nat) : Bool :=
  startsWithBytes comp [46] ∧ comp ≠ [46] ∧ comp ≠ [46, 46]

def isAsciiHexDigitB (b : Nat) : Bool :=
  isAsciiDigitB b || (97 ≤ b ∧ b ≤ 102) || (65 ≤ b ∧ b ≤ 70)

/-- `is_uuid_format` (only called on length-36 inputs). -/
def is_uuid_format (s : List Nat) : Bool :=
  s.getD 8 0 = 45 ∧ s.getD 13 0 = 45 ∧ s.getD 18 0 = 45 ∧ s.getD 23 0 = 45 ∧
  (List.range s.length).all (fun i =>
    i = 8 ∨ i = 13 ∨ i = 18 ∨ i = 23 ∨ isAsciiHexDigitB (s.getD i 0))

/-- `is_hashy`.  The source compares an `f32` ratio with `0.85`; for the
lengths admitted here (`≤ 64`) the exact rational comparison below agrees
with the `f32` computation on every input. -/
def is_hashy (s : List Nat) : Bool :=
  let len := s.length
  if len = 36 ∧ is_uuid_format s then true
  else if ¬ (16 ≤ len ∧ len ≤ 64) then false
  else if s.contains 95 || s.contains 45 || s.contains 46 then false
  else
    let hexCount := (s.filter isAsciiHexDigitB).length
    20 * hexCount > 17 * len

/-- Loop state of the single pass over components in `classify_noise`. -/
structure NoiseScan where
  depth : Nat
  has_build : Bool
  has_cache : Bool
  has_hash : Bool
  has_log : Bool
  in_hidden_app_dir : Bool
  depth_after_hidden : Nat

def noiseScanStep (st : NoiseScan) (comp : List Nat) : NoiseScan :=
  let st := { st with depth := st.depth + 1 }
  let st :=
    if st.in_hidden_app_dir then { st with depth_after_hidden := st.depth_after_hidden + 1 }
    else st
  let st :=
    if ¬ st.in_hidden_app_dir ∧ is_hidden_app_component comp then
      { st with in_hidden_app_dir := true }
    else st
  let st := if ¬ st.has_build ∧ is_noisy_component comp then { st with has_build := true } else st
  let st := if ¬ st.has_cache ∧ is_cache_component comp then { st with has_cache := true } else st
  let st := if ¬ st.has_log ∧ is_log_component comp then { st with has_log := true } else st
  if ¬ st.has_hash ∧ is_hashy comp then { st with has_hash := true } else st

def VERY_DEEP_THRESHOLD : Nat := 15

/-- `classify_noise`: `(NoiseFlags, depth)` of an absolute path string. -/
def classify_noise (path : List Nat) : NoiseFlags × Nat :=
  let comps := (path.splitOn 47).filter (· ≠ [])
  let st := comps.foldl noiseScanStep ⟨0, false, false, false, false, false, 0⟩
  let flags : NoiseFlags :=
    { system_dir := is_system_path path
      build_dir := st.has_build
      cache_dir := st.has_cache
      hashy_seg := st.has_hash
      very_deep := st.depth > VERY_DEEP_THRESHOLD
      app_data_dir := st.in_hidden_app_dir ∧ st.depth_after_hidden ≥ 2
      log_dir := st.has_log }
  (flags, min st.depth 255)

/-- `compute_file_flags`. -/
def compute_file_flags (isDir isSymlink isSpecial hiddenOs inTrash excludedGlob excludedUser : Bool) :
    FileFlags :=
  { is_dir := isDir
    is_symlink := isSymlink
    special := isSpecial
    hidden := hiddenOs
    excluded_glob := excludedGlob
    excluded_user := excludedUser
    in_trash := inTrash }

/-! ### Index builder (`crates/engine/src/index/builder.rs`)

Filesystem paths are modelled as `FsPath`: an absolute flag plus the list
of components (each a byte string); this carries exactly the structure
`Path`/`PathBuf` operations of the builder use (`strip_prefix` on
components, `parent`, `file_name`, and the raw byte rendering). -/

structure FsPath where
  abs : Bool
  comps : List (List Nat)
  deriving DecidableEq, Repr

/-- `Path::as_os_str().as_bytes()`: `/`-joined components, with a leading
slash when absolute. -/
def FsPath.bytes (p : FsPath) : List Nat :=
  (if p.abs then [47] else []) ++ List.intercalate [47] p.comps

/-- `Path::as_os_str().is_empty()`. -/
def FsPath.isEmpty (p : FsPath) : Bool := ¬ p.abs ∧ p.comps = []

/-- `Path::strip_prefix` (component-wise). -/
def FsPath.stripRoot? (full root : FsPath) : Option FsPath :=
  if root.abs = full.abs ∧ root.comps <+: full.comps then
    some ⟨false, full.comps.drop root.comps.length⟩
  else none

/-- `Path::parent`. -/
def FsPath.parent? (p : FsPath) : Option FsPath :=
  if p.comps = [] then none else some ⟨p.abs, p.comps.dropLast⟩

/-- `Path::file_name` (last component). -/
def FsPath.fileName? (p : FsPath) : Option (List Nat) := p.comps.getLast?

/-- `FileRecord` (crates/fs/src/record.rs). -/
structure FileRecord where
  full_path : FsPath
  name : List Nat
  size : Nat
  mtime_secs : Nat
  ctime_secs : Nat
  atime_secs : Nat
  ext : Option (List Nat)
  is_dir : Bool
  is_symlink : Bool
  is_special : Bool
  in_trash : Bool
  ignored_glob : Bool
  hidden_os : Bool
  user_excludes : Bool
  deriving Repr

/-- On-disk `FileMeta` (sizes and times already narrowed). -/
structure FileMeta where
  size : Nat
  mtime_secs : Nat
  ctime_secs : Nat
  atime_secs : Nat
  dir_id : Nat
  name_offset : Nat
  name_len : Nat
  ext_id : Nat
  flag_bits : Nat
  noise_bits : Nat
  path_depth : Nat
  deriving DecidableEq, Repr

structure DirMeta where
  name_offset : Nat
  name_len : Nat
  parent : Nat
  flags_bits : Nat
  deriving DecidableEq, Repr

structure TrigramKey where
  trigram : Nat
  postings_offset : Nat
  postings_len : Nat
  deriving DecidableEq, Repr

structure ExtKey where
  ext_id : Nat
  postings_offset : Nat
  postings_len : Nat
  deriving DecidableEq, Repr

/-- `narrow_time`: clamp a `u64` timestamp to `u32`. -/
def narrow_time (t : Nat) : Nat := if t > U32MAX then U32MAX else t

/-- `intern_string`: append to the names blob, return `(offset, len)`. -/
def intern_string (buf : List Nat) (s : List Nat) : List Nat × Nat × Nat :=
  (buf ++ s, buf.length, s.length)

/-- Association-list find (models `HashMap::get`). -/
def assocFind? {α β : Type} [DecidableEq α] (m : List (α × β)) (k : α) : Option β :=
  (m.find? (fun e => e.1 = k)).map (·.2)

/-- `map.entry(tri).or_default().push(id)` on the insertion-ordered
association list model. -/
def trigramPush (m : List (Nat × List Nat)) (tri : Nat) (id : Nat) : List (Nat × List Nat) :=
  match assocFind? m tri with
  | some _ => m.map (fun e => if e.1 = tri then (e.1, e.2 ++ [id]) else e)
  | none => m ++ [(tri, [id])]

/-- Update the list entry at an index (models `self.ext_postings[i].push`;
the index always exists when the builder calls it). -/
def modifyIdx {α : Type} (l : List α) (i : Nat) (f : α → α) : List α :=
  l.enum.map (fun e => if e.1 = i then f e.2 else e.2)

/-- `path_trigrams` (Unix branch): trigrams of the raw path bytes. -/
def path_trigrams (p : FsPath) : List Nat :=
  build_trigrams_for_bytes p.bytes

/-- The `IndexBuilder` state. -/
structure IndexBuilder where
  root : FsPath
  names_blob : List Nat
  dirs : List DirMeta
  dir_map : List (FsPath × Nat)
  files : List FileMeta
  ext_table : List (List Nat)
  ext_map : List (List Nat × Nat)
  ext_postings : List (List Nat)
  file_trigrams : List (Nat × List Nat)
  dir_trigrams : List (Nat × List Nat)
  root_path_offset : Nat
  root_path_len : Nat

/-- `IndexBuilder::new`.  Note: the source comment says `ext_table[0]` is
reserved for "no extension", but the constructed `ext_table` is `vec![]`
(empty) while `ext_postings` starts with one (empty) posting list. -/
def IndexBuilder.new (root : FsPath) : IndexBuilder :=
  let rootStr := root.bytes
  { root := root
    names_blob := rootStr
    dirs := []
    dir_map := []
    files := []
    ext_table := []
    ext_map := []
    ext_postings := [[]]
    file_trigrams := []
    dir_trigrams := []
    root_path_offset := 0
    root_path_len := rootStr.length }

/-- `IndexBuilder::intern_ext`. -/
def IndexBuilder.intern_ext (b : IndexBuilder) (ext : Option (List Nat)) :
    IndexBuilder × Nat :=
  match ext with
  | none => (b, 0)
  | some e =>
    match assocFind? b.ext_map e with
    | some id => (b, id)
    | none =>
      let id := b.ext_table.length
      ({ b with
          ext_table := b.ext_table ++ [e]
          ext_postings := b.ext_postings ++ [[]]
          ext_map := b.ext_map ++ [(e, id)] }, id)

/-- `IndexBuilder::get_or_insert_dir`, fueled on the component count (the
recursion shortens the path by one component per step, so
`relDir.comps.length` fuel never runs out and the fuel-exhausted case is
unreachable). -/
def IndexBuilder.getOrInsertDir : Nat → IndexBuilder → FsPath → IndexBuilder × Nat
  | fuel, b, relDir =>
    if relDir.isEmpty then (b, U32MAX)
    else
      match assocFind? b.dir_map relDir with
      | some id => (b, id)
      | none =>
        let pr : IndexBuilder × Nat :=
          match relDir.parent? with
          | some parent =>
            if ¬ parent.isEmpty then
              match fuel with
              | 0 => (b, U32MAX)
              | fuel' + 1 => IndexBuilder.getOrInsertDir fuel' b parent
            else (b, U32MAX)
          | none => (b, U32MAX)
        let name := (relDir.fileName?).getD []
        let ins := intern_string pr.1.names_blob name
        let id := pr.1.dirs.length
        ({ pr.1 with
            names_blob := ins.1
            dirs := pr.1.dirs ++ [⟨ins.2.1, ins.2.2, pr.2, 0⟩]
            dir_map := pr.1.dir_map ++ [(relDir, id)] }, id)

/-- `IndexBuilder::add_trigrams`. -/
def IndexBuilder.add_trigrams (b : IndexBuilder) (fileId : Nat) (recIsDir : Bool)
    (rel : FsPath) (dirId : Nat) (flags : FileFlags) : IndexBuilder :=
  if recIsDir then
    let trigrams := path_trigrams rel
    { b with dir_trigrams := trigrams.foldl (fun m tri => trigramPush m tri dirId) b.dir_trigrams }
  else if ¬ flags.is_default_visible then b
  else
    let trigrams := path_trigrams rel
    { b with file_trigrams := trigrams.foldl (fun m tri => trigramPush m tri fileId) b.file_trigrams }

/-- `IndexBuilder::add_record`. -/
def IndexBuilder.add_record (b : IndexBuilder) (record : FileRecord) : IndexBuilder :=
  let ins := intern_string b.names_blob record.name
  let b := { b with names_blob := ins.1 }
  let nameOffset := ins.2.1
  let nameLen := ins.2.2
  let mtime := narrow_time record.mtime_secs
  let ctime := narrow_time record.ctime_secs
  let atime := narrow_time record.atime_secs
  let fileId := b.files.length
  let rel := match FsPath.stripRoot? record.full_path b.root with
    | some p => p
    | none => record.full_path
  let relDir := match rel.parent? with
    | some p => p
    | none => ⟨false, []⟩
  let be := b.intern_ext record.ext
  let b := be.1
  let extId := be.2
  let bd := IndexBuilder.getOrInsertDir relDir.comps.length b relDir
  let b := bd.1
  let dirId := bd.2
  let b := { b with ext_postings := modifyIdx b.ext_postings extId (· ++ [fileId]) }
  let pathStr := record.full_path.bytes
  let nd := classify_noise pathStr
  let fileFlags := compute_file_flags record.is_dir record.is_symlink record.is_special
    record.hidden_os record.in_trash record.ignored_glob record.user_excludes
  let meta : FileMeta :=
    { size := record.size
      mtime_secs := mtime
      ctime_secs := ctime
      atime_secs := atime
      dir_id := dirId
      name_offset := nameOffset
      name_len := nameLen
      ext_id := extId
      flag_bits := fileFlags.bits
      noise_bits := nd.1.bits
      path_depth := nd.2 }
  let b := { b with files := b.files ++ [meta] }
  b.add_trigrams fileId record.is_dir rel dirId fileFlags

/-- `IndexBuilder::add_batch`. -/
def IndexBuilder.add_batch (b : IndexBuilder) (batch : List FileRecord) : IndexBuilder :=
  batch.foldl IndexBuilder.add_record b

/-- The entry loop of `pack_trigram_map`: sort each posting list, record
its key with the running offset, and concatenate into the flat postings
array. -/
def packEntriesGo : Nat → List (Nat × List Nat) → List TrigramKey × List Nat
  | _, [] => ([], [])
  | offset, e :: rest =>
    let v := sortNat e.2
    let r := packEntriesGo (offset + v.length) rest
    (⟨e.1, offset, v.length⟩ :: r.1, v ++ r.2)

/-- `pack_trigram_map`: entries sorted by trigram key (the map's keys are
distinct, so the sorted entry order — and hence the result — is unique
whatever comparison sort the source uses). -/
def pack_trigram_map (m : List (Nat × List Nat)) : List TrigramKey × List Nat :=
  let entries := List.insertionSort (fun a b : Nat × List Nat => a.1 ≤ b.1) m
  packEntriesGo 0 entries

/-- The loop of `pack_ext_postings` (no sort: the builder appends FileIds
in increasing order). -/
def packExtGo : Nat → Nat → List (List Nat) → List ExtKey × List Nat
  | _, _, [] => ([], [])
  | extId, offset, v :: rest =>
    let r := packExtGo (extId + 1) (offset + v.length) rest
    (⟨extId, offset, v.length⟩ :: r.1, v ++ r.2)

/-- `pack_ext_postings`. -/
def pack_ext_postings (extPostings : List (List Nat)) : List ExtKey × List Nat :=
  packExtGo 0 0 extPostings

/-- `StagedIndex`. -/
structure StagedIndex where
  root : FsPath
  names_blob : List Nat
  root_path_offset : Nat
  root_path_len : Nat
  dirs : List DirMeta
  files : List FileMeta
  ext_table : List (List Nat)
  ext_index_keys : List ExtKey
  ext_index_postings : List Nat
  file_trigram_keys : List TrigramKey
  file_trigram_postings : List Nat
  dir_trigram_keys : List TrigramKey
  dir_trigram_postings : List Nat

/-- `IndexBuilder::finish`. -/
def IndexBuilder.finish (b : IndexBuilder) : StagedIndex :=
  let ft := pack_trigram_map b.file_trigrams
  let dt := pack_trigram_map b.dir_trigrams
  let et := pack_ext_postings b.ext_postings
  { root := b.root
    names_blob := b.names_blob
    root_path_offset := b.root_path_offset
    root_path_len := b.root_path_len
    dirs := b.dirs
    files := b.files
    ext_table := b.ext_table
    ext_index_keys := et.1
    ext_index_postings := et.2
    file_trigram_keys := ft.1
    file_trigram_postings := ft.2
    dir_trigram_keys := dt.1
    dir_trigram_postings := dt.2 }

/-- Build an index over a record stream: `IndexBuilder::new`, `add_batch`,
`finish`. -/
def buildStagedIndex (root : FsPath) (records : List FileRecord) : StagedIndex :=
  ((IndexBuilder.new root).add_batch records).finish

/-- The posting-list slice a `TrigramKey`/`ExtKey` designates inside the
flat postings array (`postings[offset .. offset + len]`). -/
def postingSlice (postings : List Nat) (offset len : Nat) : List Nat :=
  (postings.drop offset).take len

/-! ### Index reader
(`crates/engine/src/index/mod.rs`, `reader.rs`, `helpers.rs`)

The opened `Index` is modelled after `Index::from_mmap`: the decoded
views of the sections (`cast_slice` results and the decoded extension
table), not the raw mapping bytes.  `index_meta` is the root-path
`(offset, len)` of the metadata section, `none` when the section is too
short (`read_index_meta`). -/

/-- UTF-8 validity of a byte list (for `str::from_utf8`). -/
def isValidUtf8 : List Nat → Bool
  | [] => true
  | b :: rest =>
    if b < 128 then isValidUtf8 rest
    else if 194 ≤ b ∧ b ≤ 223 then
      match rest with
      | c :: rest2 => 128 ≤ c ∧ c ≤ 191 ∧ isValidUtf8 rest2
      | _ => false
    else if b = 224 then
      match rest with
      | c :: d :: rest2 => 160 ≤ c ∧ c ≤ 191 ∧ 128 ≤ d ∧ d ≤ 191 ∧ isValidUtf8 rest2
      | _ => false
    else if 225 ≤ b ∧ b ≤ 236 ∨ b = 238 ∨ b = 239 then
      match rest with
      | c :: d :: rest2 => 128 ≤ c ∧ c ≤ 191 ∧ 128 ≤ d ∧ d ≤ 191 ∧ isValidUtf8 rest2
      | _ => false
    else if b = 237 then
      match rest with
      | c :: d :: rest2 => 128 ≤ c ∧ c ≤ 159 ∧ 128 ≤ d ∧ d ≤ 191 ∧ isValidUtf8 rest2
      | _ => false
    else if b = 240 then
      match rest with
      | c :: d :: e :: rest2 =>
        144 ≤ c ∧ c ≤ 191 ∧ 128 ≤ d ∧ d ≤ 191 ∧ 128 ≤ e ∧ e ≤ 191 ∧ isValidUtf8 rest2
      | _ => false
    else if 241 ≤ b ∧ b ≤ 243 then
      match rest with
      | c :: d :: e :: rest2 =>
        128 ≤ c ∧ c ≤ 191 ∧ 128 ≤ d ∧ d ≤ 191 ∧ 128 ≤ e ∧ e ≤ 191 ∧ isValidUtf8 rest2
      | _ => false
    else if b = 244 then
      match rest with
      | c :: d :: e :: rest2 =>
        128 ≤ c ∧ c ≤ 143 ∧ 128 ≤ d ∧ d ≤ 191 ∧ 128 ≤ e ∧ e ≤ 191 ∧ isValidUtf8 rest2
      | _ => false
    else false

/-- `blob_str` (index/helpers.rs): decode `(offset, len)` from the names
blob; out-of-range or invalid UTF-8 yields the empty string. -/
def blob_str (blob : List Nat) (off len : Nat) : List Nat :=
  if off + len ≤ blob.length then
    let s := (blob.drop off).take len
    if isValidUtf8 s then s else []
  else []

/-- The opened index (decoded section views). -/
structure Index where
  header_file_count : Nat
  header_dir_count : Nat
  ext_table : List (List Nat)
  file_metas : List FileMeta
  dirs : List DirMeta
  names_blob : List Nat
  ext_keys : List ExtKey
  ext_postings_raw : List Nat
  trigram_keys : List TrigramKey
  trigram_postings_raw : List Nat
  dir_trigram_keys : List TrigramKey
  dir_trigram_postings_raw : List Nat
  index_meta : Option (Nat × Nat)

/-- `decode_ext_table`: NUL-separated split (note the trailing NUL of the
encoder makes the decoded table carry one final empty entry). -/
def decode_ext_table (bytes : List Nat) : List (List Nat) :=
  bytes.splitOn 0

/-- `Index::get_name`. -/
def Index.get_name (idx : Index) (off len : Nat) : List Nat :=
  blob_str idx.names_blob off len

/-- `IndexReader::get_file_count` for `Index`. -/
def Index.get_file_count (idx : Index) : Nat := idx.header_file_count

def Index.dir_count (idx : Index) : Nat := idx.header_dir_count

/-- `get_dir_name`. -/
def Index.get_dir_name (idx : Index) (id : Nat) : List Nat :=
  match idx.dirs.get? id with
  | some dir => idx.get_name dir.name_offset dir.name_len
  | none => []

/-- `get_file_name`. -/
def Index.get_file_name (idx : Index) (id : Nat) : List Nat :=
  match idx.file_metas.get? id with
  | some meta => idx.get_name meta.name_offset meta.name_len
  | none => []

/-- `get_file_dir_id`. -/
def Index.get_file_dir_id (idx : Index) (id : Nat) : Nat :=
  ((idx.file_metas.get? id).map FileMeta.dir_id).getD U32MAX

/-- `get_file_ext`: ExtId 0 is "no extension"; unknown table ids yield "". -/
def Index.get_file_ext (idx : Index) (id : Nat) : List Nat :=
  match idx.file_metas.get? id with
  | some meta =>
    if meta.ext_id = 0 then []
    else ((idx.ext_table.get? meta.ext_id).getD [])
  | none => []

def Index.get_file_size (idx : Index) (id : Nat) : Nat :=
  ((idx.file_metas.get? id).map FileMeta.size).getD 0

def Index.get_file_modified_epoch (idx : Index) (id : Nat) : Int :=
  ((idx.file_metas.get? id).map (fun m => (m.mtime_secs : Int))).getD 0

def Index.get_file_created_epoch (idx : Index) (id : Nat) : Int :=
  ((idx.file_metas.get? id).map (fun m => (m.ctime_secs : Int))).getD 0

/-- `NoiseFlags::from_bits_truncate`. -/
def NoiseFlags.fromBitsTruncate (n : Nat) : NoiseFlags :=
  ⟨n.testBit 0, n.testBit 1, n.testBit 2, n.testBit 3, n.testBit 4, n.testBit 5, n.testBit 6⟩

def Index.get_file_noise_bits (idx : Index) (id : Nat) : NoiseFlags :=
  ((idx.file_metas.get? id).map (fun m => NoiseFlags.fromBitsTruncate m.noise_bits)).getD
    NoiseFlags.empty

def Index.get_file_path_depth (idx : Index) (id : Nat) : Nat :=
  ((idx.file_metas.get? id).map FileMeta.path_depth).getD 0

/-- `binary_search_by_key(&target, |k| k.trigram)` over key arrays:
running the stdlib algorithm over the projected keys probes exactly the
same positions. -/
def Index.query_trigram_on_disk (idx : Index) (tri : Nat) : Option (List Nat) :=
  match binarySearch (idx.trigram_keys.map TrigramKey.trigram) tri with
  | Sum.inr _ => none
  | Sum.inl i =>
    match idx.trigram_keys.get? i with
    | none => none
    | some key =>
      if key.postings_offset + key.postings_len > idx.trigram_postings_raw.length then none
      else some (postingSlice idx.trigram_postings_raw key.postings_offset key.postings_len)

def Index.query_dir_trigram_on_disk (idx : Index) (tri : Nat) : Option (List Nat) :=
  match binarySearch (idx.dir_trigram_keys.map TrigramKey.trigram) tri with
  | Sum.inr _ => none
  | Sum.inl i =>
    match idx.dir_trigram_keys.get? i with
    | none => none
    | some key =>
      if key.postings_offset + key.postings_len > idx.dir_trigram_postings_raw.length then none
      else some (postingSlice idx.dir_trigram_postings_raw key.postings_offset key.postings_len)

/-- `Index::ext_postings`. -/
def Index.ext_postings_of (idx : Index) (extId : Nat) : List Nat :=
  match idx.ext_keys.get? extId with
  | none => []
  | some key =>
    if key.postings_offset + key.postings_len > idx.ext_postings_raw.length then []
    else postingSlice idx.ext_postings_raw key.postings_offset key.postings_len

/-- `Index::root_path`. -/
def Index.root_path (idx : Index) : Option (List Nat) :=
  match idx.index_meta with
  | none => none
  | some m => some (idx.get_name m.1 m.2)

/-- The `loop` of `reconstruct_relative_path` walking `parent` links,
accumulating names.  Fueled: on the builder's acyclic chains
(`parent < index`) at most `dirs.length` steps occur, so the
`dirs.length + 1` fuel passed below never runs out; exhaustion models the
infinite loop the source would run on cyclic metadata, and `none` also
models the panic of `&dirs[d]` on an out-of-range id. -/
def Index.dirChain (idx : Index) : Nat → Nat → List (List Nat) → Option (List (List Nat))
  | 0, _, _ => none
  | fuel + 1, d, acc =>
    if d = U32MAX then some acc
    else
      match idx.dirs.get? d with
      | none => none
      | some dir =>
        let name := idx.get_name dir.name_offset dir.name_len
        let acc := if name ≠ [] then acc ++ [name] else acc
        if dir.parent = U32MAX then some acc
        else idx.dirChain fuel dir.parent acc

/-- `Index::reconstruct_relative_path`; `none` is the panic of
`&metas[file_id]` on an out-of-range FileId. -/
def Index.reconstruct_relative_path (idx : Index) (fileId : Nat) : Option (List Nat) :=
  match idx.file_metas.get? fileId with
  | none => none
  | some meta =>
    let nameComp := idx.get_name meta.name_offset meta.name_len
    match idx.dirChain (idx.dirs.length + 1) meta.dir_id [nameComp] with
    | none => none
    | some comps => some (List.intercalate [47] comps.reverse)

/-- `Index::reconstruct_absolute_path`: outer `none` is a panic /
divergence, inner `none` is the source's `None` (missing root path). -/
def Index.reconstruct_absolute_path (idx : Index) (fileId : Nat) :
    Option (Option (List Nat)) :=
  match idx.root_path with
  | none => some none
  | some root =>
    match idx.reconstruct_relative_path fileId with
    | none => none
    | some rel =>
      some (some (root ++ (if root.getLast? ≠ some 47 then [47] else []) ++ rel))

/-- `IndexReader::reconstruct_full_path` for `Index`; `none` is a panic /
divergence (the source's "don't panic" comment notwithstanding). -/
def Index.reconstruct_full_path (idx : Index) (fileId : Nat) : Option (List Nat) :=
  match idx.reconstruct_absolute_path fileId with
  | none => none
  | some (some s) => some s
  | some none => some (idx.get_file_name fileId)

/-! ### Time resolution (`crates/engine/src/eval/helpers.rs`)

`DateTime<Utc>` values are modelled by their Unix timestamps; the
`chrono` calendar operations are the standard civil-calendar algorithms
(which is what `chrono` computes). -/

/-- Civil date `(y, m, d)` of a day number (days since the Unix epoch). -/
def civilFromDays (z0 : Int) : Int × Nat × Nat :=
  let z := z0 + 719468
  let era := z / 146097
  let doe := z - era * 146097
  let yoe := (doe - doe / 1460 + doe / 36524 - doe / 146096) / 365
  let y := yoe + era * 400
  let doy := doe - (365 * yoe + yoe / 4 - yoe / 100)
  let mp := (5 * doy + 2) / 153
  let d := doy - (153 * mp + 2) / 5 + 1
  let m := mp + (if mp < 10 then 3 else -9)
  (y + (if m ≤ 2 then 1 else 0), m.toNat, d.toNat)

/-- `start_of_day`: rebuild midnight of the timestamp's civil date. -/
def start_of_day (ts : Int) : Int :=
  let c := civilFromDays (ts / 86400)
  daysFromCivil c.1 c.2.1 c.2.2 * 86400

/-- `Datelike::weekday().num_days_from_monday()` (epoch day 0 is a
Thursday, i.e. 3 days from Monday). -/
def weekdayFromMonday (ts : Int) : Int :=
  (ts / 86400 + 3) % 7

/-- `start_of_week`. -/
def start_of_week (ts : Int) : Int :=
  start_of_day (ts - weekdayFromMonday ts * 86400)

/-- `start_of_month`. -/
def start_of_month (ts : Int) : Int :=
  let c := civilFromDays (ts / 86400)
  daysFromCivil c.1 c.2.1 1 * 86400

/-- `resolve_time_macro` (the `with_ymd_and_hms` fallback to `now` is
dead code for the always-valid dates constructed here). -/
def resolveTimeKeyword (mac : TimeKeyword) (now : Int) : Int :=
  match mac with
  | TimeKeyword.Today => start_of_day now
  | TimeKeyword.Yesterday => start_of_day (now - 86400)
  | TimeKeyword.ThisWeek => start_of_week now
  | TimeKeyword.LastWeek => start_of_week (now - 7 * 86400)
  | TimeKeyword.ThisMonth => start_of_month now
  | TimeKeyword.LastMonth =>
    let c := civilFromDays (now / 86400)
    if c.2.1 = 1 then daysFromCivil (c.1 - 1) 12 1 * 86400
    else daysFromCivil c.1 (c.2.1 - 1) 1 * 86400

/-- `resolve_relative_time` (`Duration::days/hours/weeks`, years = 365
days). -/
def resolve_relative_time (rel : RelativeTime) (now : Int) : Int :=
  match rel with
  | RelativeTime.Days n => now - n * 86400
  | RelativeTime.Hours n => now - n * 3600
  | RelativeTime.Weeks n => now - n * 604800
  | RelativeTime.Years n => now - n * 365 * 86400

/-- `resolve_time_expr`. -/
def resolve_time_expr (expr : TimeExpr) (now : Int) : Int :=
  match expr with
  | TimeExpr.Absolute ts => ts
  | TimeExpr.Relative rel => resolve_relative_time rel now
  | TimeExpr.Keyword mac => resolveTimeKeyword mac now

/-- `cmp_str_ci` (`eq_ignore_ascii_case`; ordering operators are always
false for strings). -/
def cmp_str_ci (lhs rhs : List Nat) (op : CmpOp) : Bool :=
  let eq := toAsciiLowerBytes lhs = toAsciiLowerBytes rhs
  match op with
  | CmpOp.Eq => eq
  | CmpOp.Ne => ¬ eq
  | _ => false

def cmp_u64 (lhs rhs : Nat) (op : CmpOp) : Bool :=
  match op with
  | CmpOp.Eq => lhs = rhs
  | CmpOp.Ne => lhs ≠ rhs
  | CmpOp.Gt => lhs > rhs
  | CmpOp.Ge => lhs ≥ rhs
  | CmpOp.Lt => lhs < rhs
  | CmpOp.Le => lhs ≤ rhs

def cmp_i64 (lhs rhs : Int) (op : CmpOp) : Bool :=
  match op with
  | CmpOp.Eq => lhs = rhs
  | CmpOp.Ne => lhs ≠ rhs
  | CmpOp.Gt => lhs > rhs
  | CmpOp.Ge => lhs ≥ rhs
  | CmpOp.Lt => lhs < rhs
  | CmpOp.Le => lhs ≤ rhs

/-! ### The `IndexReader` capability set (`reader.rs` trait), as consumed
by the evaluator and ranker.  Functions stand for the trait methods; any
implementation (the mmap `Index`, a mock) instantiates this. -/

structure Reader where
  file_count : Nat
  dirCount : Nat
  get_file_name : Nat → List Nat
  get_file_ext : Nat → List Nat
  get_file_size : Nat → Nat
  get_file_modified_epoch : Nat → Int
  get_file_created_epoch : Nat → Int
  get_file_noise_bits : Nat → NoiseFlags
  get_file_path_depth : Nat → Nat
  query_trigram : Nat → Option (List Nat)
  query_dir_trigram : Nat → Option (List Nat)
  reconstruct_full_path : Nat → List Nat

/-- The trait's provided method `trigram_postings_len`. -/
def Reader.trigram_postings_len (r : Reader) (tri : Nat) : Nat :=
  ((r.query_trigram tri).map List.length).getD 0

/-! ### Predicate evaluation (`crates/engine/src/eval/predicates.rs`) -/

def eval_predicate_size (r : Reader) (pred : Predicate) (candidates : List Nat) : List Nat :=
  match pred.value with
  | Value.SizeBytes threshold =>
    candidates.filter (fun fid => cmp_u64 (r.get_file_size fid) threshold pred.op)
  | _ => []

def eval_predicate_ext (r : Reader) (pred : Predicate) (candidates : List Nat) : List Nat :=
  match pred.value with
  | Value.Str wanted =>
    candidates.filter (fun fid => cmp_str_ci (r.get_file_ext fid) wanted pred.op)
  | _ => []

def eval_predicate_created (r : Reader) (pred : Predicate) (candidates : List Nat)
    (now : Int) : List Nat :=
  match pred.value with
  | Value.Time timeExpr =>
    let threshold := resolve_time_expr timeExpr now
    candidates.filter (fun fid => cmp_i64 (r.get_file_created_epoch fid) threshold pred.op)
  | _ => []

def eval_predicate_modified (r : Reader) (pred : Predicate) (candidates : List Nat)
    (now : Int) : List Nat :=
  match pred.value with
  | Value.Time timeExpr =>
    let threshold := resolve_time_expr timeExpr now
    candidates.filter (fun fid => cmp_i64 (r.get_file_modified_epoch fid) threshold pred.op)
  | _ => []

/-- `eval_predicate`. -/
def eval_predicate (r : Reader) (pred : Predicate) (candidates : List Nat) (now : Int) :
    List Nat :=
  match pred.field with
  | Field.Ext => eval_predicate_ext r pred candidates
  | Field.Size => eval_predicate_size r pred candidates
  | Field.Modified => eval_predicate_modified r pred candidates now
  | Field.Created => eval_predicate_created r pred candidates now

/-! ### Cost planner (`crates/engine/src/eval/planner.rs`)

`Cost` is its `u64`; addition saturates.  The two `f64` thresholds
(`count as f64 * 0.30) as usize`) are modelled as `count * 3 / 10`; the
float computation can differ from this by one unit for some counts, and
no claim below depends on the threshold's exact value. -/

def U64MAX : Nat := 2 ^ 64 - 1

def satAddU64 (a b : Nat) : Nat := min (a + b) U64MAX

def Cost.ZERO : Nat := 0

def Cost.VERY_BAD : Nat := U64MAX / 3

def Cost.LINEAR_SCAN : Nat := U64MAX / 2

/-- `chars().count()` of a UTF-8 byte string: bytes that are not
continuation bytes. -/
def utf8CharCount (s : List Nat) : Nat :=
  (s.filter (fun b => ¬ (128 ≤ b ∧ b ≤ 191))).length

/-- `estimate_text_cost_simple`.  For `3 ≤ len ≤ 40` the source computes
`10 + (30 - capped)` in `u64`; for `capped > 30` the subtraction wraps and
the subsequent addition wraps back, so the release-mode value is exactly
`40 - capped`. -/
def estimate_text_cost_simple (term : TextTerm) : Nat :=
  let len := utf8CharCount term.text
  if len < 3 then Cost.LINEAR_SCAN
  else
    let capped := min len 40
    40 - capped

def estimate_predicate_cost_simple (pred : Predicate) : Nat :=
  match pred.field with
  | Field.Ext => 10
  | Field.Size => 20
  | Field.Created => 25
  | Field.Modified => 25

-- Node count of a query expression (used as recursion fuel below; the
-- recursions descend into strict subterms, so this bound never runs out).
mutual

def QueryExpr.esize : QueryExpr → Nat
  | QueryExpr.Leaf _ => 1
  | QueryExpr.Not inner => QueryExpr.esize inner + 1
  | QueryExpr.And children => QueryExpr.esizeList children + 1
  | QueryExpr.Or children => QueryExpr.esizeList children + 1

def QueryExpr.esizeList : List QueryExpr → Nat
  | [] => 1
  | e :: rest => QueryExpr.esize e + QueryExpr.esizeList rest

end

/-- `.min()` of an iterator. -/
def minNat? : List Nat → Option Nat
  | [] => none
  | x :: rest =>
    match minNat? rest with
    | none => some x
    | some m => some (min x m)

/-- `estimate_cost_simple`, fueled on the expression size (each recursive
call descends into a strict subterm, so `sizeOf` fuel never runs out). -/
def estimateCostSimpleGo : Nat → QueryExpr → Nat
  | 0, _ => 5
  | fuel + 1, expr =>
    match expr with
    | QueryExpr.Leaf (LeafExpr.Pred pred) => estimate_predicate_cost_simple pred
    | QueryExpr.Leaf (LeafExpr.Text term) => estimate_text_cost_simple term
    | QueryExpr.Not inner => satAddU64 (estimateCostSimpleGo fuel inner) 1
    | QueryExpr.And children => (minNat? (children.map (estimateCostSimpleGo fuel))).getD 5
    | QueryExpr.Or children => (minNat? (children.map (estimateCostSimpleGo fuel))).getD 5

def estimate_cost_simple (expr : QueryExpr) : Nat :=
  estimateCostSimpleGo expr.esize expr

/-- The trigram loop of `estimate_text_term_cost`, returning
`(file_cost, dir_cost, impossible)`. -/
def textCostScan (r : Reader) (fileThreshold dirThreshold : Nat) :
    List Nat → Nat × Nat × Bool
  | [] => (0, 0, false)
  | tri :: rest =>
    let fLen := ((r.query_trigram tri).map List.length).getD 0
    let dLen := ((r.query_dir_trigram tri).map List.length).getD 0
    if fLen = 0 ∧ dLen = 0 then (0, 0, true)
    else
      let rec' := textCostScan r fileThreshold dirThreshold rest
      if rec'.2.2 then rec'
      else
        let f := if fLen > 0 ∧ fLen ≤ fileThreshold then fLen else 0
        let d := if dLen > 0 ∧ dLen ≤ dirThreshold then dLen else 0
        (f + rec'.1, d + rec'.2.1, false)

/-- `estimate_text_term_cost`. -/
def estimate_text_term_cost (r : Reader) (term : TextTerm) : Nat :=
  let trigrams := build_trigrams_for_string term.text
  if trigrams = [] then Cost.LINEAR_SCAN
  else
    let fileCount := r.file_count
    let dirCount := r.dirCount
    if fileCount = 0 then Cost.ZERO
    else
      let fileThreshold := fileCount * 3 / 10
      let dirThreshold := dirCount * 3 / 10
      let scan := textCostScan r fileThreshold dirThreshold trigrams
      if scan.2.2 then Cost.ZERO
      else if scan.1 > 0 then scan.1
      else if scan.2.1 > 0 then fileCount + scan.2.1
      else Cost.VERY_BAD

/-- `estimate_predicate_cost` (index-aware). -/
def estimate_predicate_cost (pred : Predicate) (candidateCount : Nat) : Nat :=
  match pred.field with
  | Field.Ext => candidateCount
  | Field.Size => 2 * candidateCount
  | Field.Created => 3 * candidateCount
  | Field.Modified => 3 * candidateCount

/-- `estimate_cost_internal`, fueled like `estimateCostSimpleGo`. -/
def estimateCostGo (r : Reader) (candidateCount : Nat) : Nat → QueryExpr → Nat
  | 0, _ => 5
  | fuel + 1, expr =>
    match expr with
    | QueryExpr.Leaf (LeafExpr.Pred pred) => estimate_predicate_cost pred candidateCount
    | QueryExpr.Leaf (LeafExpr.Text term) => estimate_text_term_cost r term
    | QueryExpr.Not inner => satAddU64 (estimateCostGo r candidateCount fuel inner) 1
    | QueryExpr.And children =>
      (minNat? (children.map (estimateCostGo r candidateCount fuel))).getD 5
    | QueryExpr.Or children =>
      (minNat? (children.map (estimateCostGo r candidateCount fuel))).getD 5

/-- `estimate_cost`. -/
def estimate_cost (r : Reader) (expr : QueryExpr) : Nat :=
  estimateCostGo r r.file_count expr.esize expr

/-! ### Text-term evaluation (`crates/engine/src/eval/text.rs`) -/

def SMALL_CANDIDATE_CUTOFF : Nat := 2000

def EARLY_VERIFY_CUTOFF : Nat := 256

def MAX_TRIGRAMS_PER_QUERY : Nat := 3

/-- `contains_lowercase_ascii`: `needle_lower` is already lowercased; the
ASCII fast path folds haystack bytes; the non-ASCII fallback lowercases
the haystack (Unicode in the source, ASCII here) and checks containment. -/
def contains_lowercase_ascii (haystack needleLower : List Nat) : Bool :=
  if needleLower = [] then true
  else if haystack.all (· < 128) then
    if needleLower.length > haystack.length then false
    else
      (List.range (haystack.length - needleLower.length + 1)).any (fun start =>
        (List.range needleLower.length).all (fun i =>
          toAsciiLowerB (haystack.getD (start + i) 0) = needleLower.getD i 0))
  else
    decide (needleLower <:+: toAsciiLowerBytes haystack)

/-- `extract_search_term`: the substring after the last `/` (the whole
text when no `/` occurs — both cases are this one expression). -/
def extract_search_term (text : List Nat) : List Nat :=
  ((text.reverse).takeWhile (fun b => b ≠ 47)).reverse

/-- `eval_text_linear_scan_with_paths`: filename first, then full path
(the `||` is the source's `continue`-then-retry structure). -/
def eval_text_linear_scan_with_paths (r : Reader) (needleLower : List Nat)
    (candidates : List Nat) : List Nat :=
  if needleLower = [] then candidates
  else
    candidates.filter (fun fid =>
      contains_lowercase_ascii (r.get_file_name fid) needleLower ||
      contains_lowercase_ascii (r.reconstruct_full_path fid) needleLower)

/-- The early-returning trigram-selection loop of
`eval_text_base_with_state`: `none` is the `return Vec::new()` on a
missing trigram; otherwise the kept `(trigram, len)` items in order. -/
def collectTrigramItems (r : Reader) (threshold : Nat) :
    List Nat → Option (List (Nat × Nat))
  | [] => some []
  | tri :: rest =>
    let len := r.trigram_postings_len tri
    if len = 0 then none
    else
      match collectTrigramItems r threshold rest with
      | none => none
      | some items =>
        some (if len ≤ threshold then (tri, len) :: items else items)

/-- The double-buffered intersection loop of
`get_file_trigram_candidates`; the two buffers are collapsed into the
running value (`none` = `has_current` still false). -/
def trigramIntersectGo (r : Reader) (candidates : List Nat) :
    List Nat → Option (List Nat) → List Nat
  | [], cur => cur.getD []
  | tri :: rest, cur =>
    match r.query_trigram tri with
    | none => []
    | some postings =>
      let next :=
        match cur with
        | none => intersect_adaptive candidates postings
        | some v => intersect_adaptive v postings
      if next = [] then []
      else if next.length ≤ EARLY_VERIFY_CUTOFF then next
      else trigramIntersectGo r candidates rest (some next)

/-- `get_file_trigram_candidates`: rarest-first order, then successive
adaptive intersection with early verification cutoff.  The sort by
posting length is the source's unstable sort; ties between distinct
trigrams of equal posting length may be ordered differently there, which
only permutes the intersection order. -/
def get_file_trigram_candidates (r : Reader) (trigrams : List Nat)
    (candidates : List Nat) : List Nat :=
  if trigrams = [] ∨ candidates = [] then []
  else
    let tris := List.insertionSort
      (fun a b : Nat × Nat => a.2 ≤ b.2)
      (trigrams.map (fun t => (t, r.trigram_postings_len t)))
    trigramIntersectGo r candidates (tris.map (·.1)) none

/-- `TextSearchState::new` + `eval_text_base_with_state`. -/
def eval_text_base (r : Reader) (needleLower : List Nat) (trigrams : List Nat)
    (candidates : List Nat) : List Nat :=
  if candidates = [] then []
  else if trigrams = [] ∨ candidates.length ≤ SMALL_CANDIDATE_CUTOFF then
    eval_text_linear_scan_with_paths r needleLower candidates
  else
    let fileCount := r.file_count
    if fileCount = 0 then []
    else
      let threshold := fileCount * 3 / 10
      match collectTrigramItems r threshold trigrams with
      | none => []
      | some items =>
        if items = [] then eval_text_linear_scan_with_paths r needleLower candidates
        else
          let sorted := List.insertionSort (fun a b : Nat × Nat => a.2 ≤ b.2) items
          let effective := (sorted.take MAX_TRIGRAMS_PER_QUERY).map (·.1)
          let triCandidates := get_file_trigram_candidates r effective candidates
          if triCandidates = [] then []
          else
            triCandidates.filter (fun fid =>
              contains_lowercase_ascii (r.get_file_name fid) needleLower ||
              contains_lowercase_ascii (r.reconstruct_full_path fid) needleLower)

/-- `eval_text_term`. -/
def eval_text_term (r : Reader) (term : TextTerm) (candidates : List Nat) : List Nat :=
  let search := extract_search_term term.text
  eval_text_base r (toAsciiLowerBytes search) (build_trigrams_for_string search) candidates

/-- `path_contains_all_terms`. -/
def path_contains_all_terms (path : List Nat) (needles : List (List Nat)) : Bool :=
  needles.all (fun needle => contains_lowercase_ascii path needle)

/-- `filter_candidates_by_all_terms`. -/
def filter_candidates_by_all_terms (r : Reader) (terms : List TextTerm)
    (candidates : List Nat) : List Nat :=
  if candidates = [] ∨ terms = [] then candidates
  else
    let needles := terms.map (fun t => toAsciiLowerBytes (extract_search_term t.text))
    candidates.filter (fun fid =>
      path_contains_all_terms (r.get_file_name fid) needles ||
      path_contains_all_terms (r.reconstruct_full_path fid) needles)

/-! ### Query engine (`crates/engine/src/eval/mod.rs`) -/

/-- The term-cost loop of `eval_pure_text_conjunction`: `none` is the
early `return Vec::new()` on a `ZERO` cost; otherwise the
`(cost, term, is_broad)` triples in order. -/
def pureTextCosts (r : Reader) (broadThreshold : Nat) :
    List TextTerm → Option (List (Nat × TextTerm × Bool))
  | [] => some []
  | term :: rest =>
    let cost := estimate_text_term_cost r term
    if cost = Cost.ZERO then none
    else
      match pureTextCosts r broadThreshold rest with
      | none => none
      | some acc =>
        let isBroad := cost > broadThreshold ∨ cost = Cost.VERY_BAD ∨ cost = Cost.LINEAR_SCAN
        some ((cost, term, isBroad) :: acc)

/-- `eval_pure_text_conjunction`.  The broad threshold
`(file_count as f64 * 0.6) as u64` is modelled as `file_count * 6 / 10`
(see the planner note on `f64` thresholds); the sort over term costs is
the source's unstable sort, whose tie order between equal-cost terms is
unspecified — it picks the seed among equal-cost terms, and no claim
below depends on which. -/
def eval_pure_text_conjunction (r : Reader) (terms : List TextTerm)
    (candidates : List Nat) : List Nat :=
  if candidates = [] then []
  else if terms = [] then candidates
  else
    let fileCount := r.file_count
    if fileCount = 0 then []
    else
      let broadThreshold := fileCount * 6 / 10
      match pureTextCosts r broadThreshold terms with
      | none => []
      | some termCosts =>
        let sorted := List.insertionSort
          (fun a b : Nat × TextTerm × Bool => a.1 ≤ b.1) termCosts
        let seedTerm :=
          match sorted.find? (fun tc => ¬ tc.2.2) with
          | some tc => tc.2.1
          | none => ((sorted.head?).map (fun tc => tc.2.1)).getD ⟨[], false, false⟩
        let seedCandidates := eval_text_term r seedTerm candidates
        if seedCandidates = [] then []
        else filter_candidates_by_all_terms r terms seedCandidates

-- `QueryEngine::eval_expr` / `eval_leaf`, fueled on the expression size:
-- each recursive call is on a member of (a permutation of) the current
-- node's children, so `QueryExpr.esize` fuel never runs out and the
-- fuel-exhausted fallback is unreachable.
mutual

def evalExprGo (r : Reader) : Nat → QueryExpr → List Nat → Int → List Nat
  | 0, _, _, _ => []
  | fuel + 1, expr, candidates, timestamp =>
    match expr with
    | QueryExpr.Leaf (LeafExpr.Text term) => eval_text_term r term candidates
    | QueryExpr.Leaf (LeafExpr.Pred pred) => eval_predicate r pred candidates timestamp
    | QueryExpr.And children =>
      if children.isEmpty then candidates
      else
        let textTerms := children.filterMap (fun c =>
          match c with
          | QueryExpr.Leaf (LeafExpr.Text t) => some t
          | _ => none)
        if textTerms.length ≥ 2 ∧ textTerms.length = children.length then
          eval_pure_text_conjunction r textTerms candidates
        else
          let useIndexCosts := textTerms.length ≥ 2
          let ordered :=
            if useIndexCosts then
              List.insertionSort (fun a b => estimate_cost r a ≤ estimate_cost r b) children
            else
              List.insertionSort
                (fun a b => estimate_cost_simple a ≤ estimate_cost_simple b) children
          evalAndFold r fuel ordered candidates timestamp
    | QueryExpr.Or children =>
      if children.isEmpty then []
      else evalOrFold r fuel children candidates timestamp []
    | QueryExpr.Not inner =>
      let innerIds := evalExprGo r fuel inner candidates timestamp
      if innerIds = [] then candidates
      else diff_sorted candidates innerIds

def evalAndFold (r : Reader) : Nat → List QueryExpr → List Nat → Int → List Nat
  | 0, _, current, _ => current
  | _ + 1, [], current, _ => current
  | fuel + 1, child :: rest, current, timestamp =>
    if current = [] then current
    else evalAndFold r fuel rest (evalExprGo r fuel child current timestamp) timestamp

def evalOrFold (r : Reader) :
    Nat → List QueryExpr → List Nat → Int → List Nat → List Nat
  | 0, _, _, _, acc => acc
  | _ + 1, [], _, _, acc => acc
  | fuel + 1, child :: rest, candidates, timestamp, acc =>
    let subset := evalExprGo r fuel child candidates timestamp
    let acc' :=
      if acc = [] then subset
      else if subset ≠ [] then union_sorted acc subset
      else acc
    evalOrFold r fuel rest candidates timestamp acc'

end

/-- `QueryEngine::eval_expr`. -/
def eval_expr (r : Reader) (expr : QueryExpr) (candidates : List Nat)
    (timestamp : Int) : List Nat :=
  evalExprGo r expr.esize expr candidates timestamp

/-- `QueryEngine::eval_query`: evaluate from the full FileId universe
(`timestamp` stands for the `Utc::now()` captured at entry). -/
def eval_query (r : Reader) (query : Query) (timestamp : Int) : List Nat :=
  eval_expr r query.expr (List.range r.file_count) timestamp

/-! ### Ranker (`crates/engine/src/eval/rank/mod.rs`, `scoring.rs`)

`FileFeatures`'s lazy `Option` caching is a performance device; the
cached values are pure functions of the index, which is what the scoring
functions below consume.  Scores are `i32` in the source; they are
modelled as `Int` (the additive components are far below `i32` range for
any realistic term count). -/

structure RankingContext where
  terms : List (List Nat)
  now : Int

/-- `collect_text_terms` (pre-order, lowercased, empty texts skipped),
fueled on the expression size. -/
def collectTextTermsGo : Nat → QueryExpr → List (List Nat) → List (List Nat)
  | 0, _, out => out
  | fuel + 1, expr, out =>
    match expr with
    | QueryExpr.And children => children.foldl (fun o c => collectTextTermsGo fuel c o) out
    | QueryExpr.Or children => children.foldl (fun o c => collectTextTermsGo fuel c o) out
    | QueryExpr.Not inner => collectTextTermsGo fuel inner out
    | QueryExpr.Leaf (LeafExpr.Text term) =>
      if term.text ≠ [] then out ++ [toAsciiLowerBytes term.text] else out
    | QueryExpr.Leaf _ => out

/-- `RankingContext::from_query`. -/
def RankingContext.from_query (query : Query) (now : Int) : RankingContext :=
  ⟨collectTextTermsGo query.expr.esize query.expr [], now⟩

/-- First byte index of a substring occurrence (`str::find`). -/
def findSubIdx? (haystack needle : List Nat) : Option Nat :=
  (List.range (haystack.length + 1)).find? (fun i =>
    needle <+: haystack.drop i)

/-- `score_path_depth`: `-min(30, max(0, depth - 8) * 2)`. -/
def score_path_depth (pathDepth : Nat) : Int :=
  let excess : Int := max ((pathDepth : Int) - 8) 0
  let penalty : Int := min (excess * 2) 30
  Int.neg penalty

/-- `score_term_in_name`. -/
def score_term_in_name (name term : List Nat) : Int :=
  if name = term then 120
  else if startsWithBytes name term then 80
  else
    match findSubIdx? name term with
    | some pos => max (40 - (pos : Int)) 10
    | none => 0

/-- `score_term_in_path`. -/
def score_term_in_path (fullPath term : List Nat) : Int :=
  if ((fullPath.splitOn 47).filter (· ≠ [])).any (· = term) then 30
  else if (findSubIdx? fullPath term).isSome then 15
  else 0

/-- `sum_term_scores` / `score_name_match`. -/
def score_name_match (nameLower : List Nat) (ctx : RankingContext) : Int :=
  if ctx.terms.isEmpty then 0
  else (ctx.terms.map (fun term => score_term_in_name nameLower term)).sum

/-- `score_path_match`. -/
def score_path_match (fullPathLower : List Nat) (ctx : RankingContext) : Int :=
  if ctx.terms.isEmpty then 0
  else (ctx.terms.map (fun term => score_term_in_path fullPathLower term)).sum

/-- `score_recency`: no recency bonus in build/cache/app-data/log
locations; tiers 1 day → 40, 1 week → 25, 30 days → 10. -/
def score_recency (flags : NoiseFlags) (modifiedEpoch now : Int) : Int :=
  if flags.build_dir ∨ flags.cache_dir ∨ flags.app_data_dir ∨ flags.log_dir then 0
  else
    let age := now - modifiedEpoch
    if age < 86400 then 40
    else if age < 604800 then 25
    else if age < 2592000 then 10
    else 0

def DOC_EXTS : List (List Nat) :=
  [strB "pdf", strB "doc", strB "docx", strB "txt", strB "md", strB "rst",
   strB "rtf", strB "odt"]

def CODE_EXTS : List (List Nat) :=
  [strB "rs", strB "py", strB "js", strB "ts", strB "jsx", strB "tsx", strB "go",
   strB "java", strB "c", strB "cpp", strB "h", strB "hpp", strB "rb", strB "php",
   strB "swift", strB "kt", strB "scala", strB "hs", strB "ml", strB "ex",
   strB "exs", strB "clj", strB "cs", strB "fs", strB "lua", strB "sh",
   strB "bash", strB "zsh", strB "fish", strB "pl", strB "r", strB "sql",
   strB "zig", strB "nim", strB "v", strB "d", strB "cr"]

def CONFIG_EXTS : List (List Nat) :=
  [strB "json", strB "yaml", strB "yml", strB "toml", strB "ini", strB "cfg",
   strB "conf", strB "xml", strB "env"]

def BINARY_EXTS : List (List Nat) :=
  [strB "exe", strB "dll", strB "so", strB "dylib", strB "o", strB "a",
   strB "lib", strB "bin", strB "class", strB "pyc", strB "pyo", strB "wasm"]

/-- `score_type_category`; the noisy-location downweight `base / 3` is
the source's `i32` division, which truncates toward zero (`Int.tdiv`). -/
def score_type_category (ext : List Nat) (flags : NoiseFlags) : Int :=
  let base : Int :=
    if DOC_EXTS.contains ext then 20
    else if CODE_EXTS.contains ext then 15
    else if CONFIG_EXTS.contains ext then 5
    else if BINARY_EXTS.contains ext then -20
    else 0
  if flags.build_dir ∨ flags.cache_dir ∨ flags.app_data_dir ∨ flags.log_dir ∨
      flags.system_dir then
    Int.tdiv base 3
  else base

/-- `noise_penalty`. -/
def noise_penalty (flags : NoiseFlags) : Int :=
  (if flags.system_dir then 60 else 0) + (if flags.build_dir then 90 else 0) +
  (if flags.cache_dir then 70 else 0) + (if flags.hashy_seg then 40 else 0) +
  (if flags.very_deep then 10 else 0) + (if flags.app_data_dir then 50 else 0) +
  (if flags.log_dir then 40 else 0)

/-- `compute_score` (the full score). -/
def compute_score (r : Reader) (fid : Nat) (ctx : RankingContext) : Int :=
  let flags := r.get_file_noise_bits fid
  score_name_match (toAsciiLowerBytes (r.get_file_name fid)) ctx +
  score_path_match (toAsciiLowerBytes (r.reconstruct_full_path fid)) ctx +
  score_recency flags (r.get_file_modified_epoch fid) ctx.now +
  score_path_depth (r.get_file_path_depth fid) +
  score_type_category (r.get_file_ext fid) flags -
  noise_penalty flags

/-- `compute_quick_score` (cheap features only). -/
def compute_quick_score (r : Reader) (fid : Nat) (ctx : RankingContext) : Int :=
  let flags := r.get_file_noise_bits fid
  score_recency flags (r.get_file_modified_epoch fid) ctx.now +
  score_type_category (r.get_file_ext fid) flags +
  score_path_depth (r.get_file_path_depth fid) -
  noise_penalty flags

/-- The rank comparator `b.1.cmp(&a.1).then_with(|| a.0.cmp(&b.0))` as a
total order ("a sorts no later than b"): descending score, ties by
ascending FileId, on `(FileId, score)` pairs. -/
def rankLE (a b : Nat × Int) : Bool :=
  b.2 < a.2 ∨ (a.2 = b.2 ∧ a.1 ≤ b.1)

/-- The result of `select_nth_unstable_by(k, rank comparator)`: some
permutation placing the `k` comparator-smallest elements first.  Any
outcome the Rust postcondition admits satisfies this predicate. -/
def IsSelectArrangement (k : Nat) (l out : List (Nat × Int)) : Prop :=
  out.Perm l ∧ ∀ x ∈ out.take k, ∀ y ∈ out.drop k, rankLE x y

/-- The canonical arrangement: full stable sort (one valid
`select_nth_unstable_by` outcome). -/
def canonicalArrangement (_k : Nat) (l : List (Nat × Int)) : List (Nat × Int) :=
  List.insertionSort (fun a b => rankLE a b) l

/-- `rank_two_pass`, parametrized by the `select_nth_unstable_by`
outcome `sel` (pass 1 quick-scores everything, keeps `3 * limit`
candidates, pass 2 fully rescores the survivors and sorts). -/
def rankTwoPassWith (sel : Nat → List (Nat × Int) → List (Nat × Int))
    (r : Reader) (ctx : RankingContext) (hits : List Nat) (limit : Nat) : List Nat :=
  let quickScored := hits.map (fun fid => (fid, compute_quick_score r fid ctx))
  let candidateLimit := min (limit * 3) quickScored.length
  let surviving := (sel candidateLimit quickScored).take candidateLimit
  let fullyScored := surviving.map (fun p => (p.1, compute_score r p.1 ctx))
  ((List.insertionSort (fun a b => rankLE a b) fullyScored).take limit).map (·.1)

/-- `rank`, parametrized the same way.  In the partial-sort branch the
source runs `select_nth`, truncates, and sorts the prefix; in the
full-sort branch it sorts and truncates (`sort_by` is stable, hence the
stable `insertionSort`). -/
def rankWith (sel : Nat → List (Nat × Int) → List (Nat × Int))
    (r : Reader) (query : Query) (hits : List Nat) (now : Int) (limit : Option Nat) :
    List Nat :=
  if hits.isEmpty then []
  else
    let ctx := RankingContext.from_query query now
    match limit with
    | some 0 => []
    | _ =>
      let effectiveLimit :=
        match limit with
        | none => hits.length
        | some n => min n hits.length
      if hits.length > 1000 ∧ hits.length / effectiveLimit > 10 then
        rankTwoPassWith sel r ctx hits effectiveLimit
      else
        let scored := hits.map (fun fid => (fid, compute_score r fid ctx))
        if effectiveLimit < scored.length / 2 then
          let kept := (sel effectiveLimit scored).take effectiveLimit
          (List.insertionSort (fun a b => rankLE a b) kept).map (·.1)
        else
          ((List.insertionSort (fun a b => rankLE a b) scored).take effectiveLimit).map (·.1)

/-- `rank` with the canonical arrangement. -/
def rank (r : Reader) (query : Query) (hits : List Nat) (now : Int)
    (limit : Option Nat) : List Nat :=
  rankWith canonicalArrangement r query hits now limit

/-- `rank_two_pass` with the canonical arrangement. -/
def rank_two_pass (r : Reader) (ctx : RankingContext) (hits : List Nat)
    (limit : Nat) : List Nat :=
  rankTwoPassWith canonicalArrangement r ctx hits limit

/-! ### Concrete instances

Small concrete indexes, readers and record streams, used to instantiate
the general theorems below on explicit inputs. -/

/-- `encode_ext_table` (persist.rs): NUL-terminated concatenation.  Its
doc comment says the first entry is the reserved `""`, but it writes
whatever table the builder produced. -/
def encode_ext_table (exts : List (List Nat)) : List Nat :=
  (exts.map (fun e => e ++ [0])).flatten

/-- A minimal `IndexReader` implementation (an index over no files). -/
def emptyReader : Reader :=
  { file_count := 0
    dirCount := 0
    get_file_name := fun _ => []
    get_file_ext := fun _ => []
    get_file_size := fun _ => 0
    get_file_modified_epoch := fun _ => 0
    get_file_created_epoch := fun _ => 0
    get_file_noise_bits := fun _ => NoiseFlags.empty
    get_file_path_depth := fun _ => 0
    query_trigram := fun _ => none
    query_dir_trigram := fun _ => none
    reconstruct_full_path := fun _ => [] }

/-- An opened index over one regular file `a` (root `/r`, file name at
names-blob offset 2): a well-formed image with `file_count = 1`. -/
def oneFileIndex : Index :=
  { header_file_count := 1
    header_dir_count := 0
    ext_table := [[]]
    file_metas := [⟨5, 0, 0, 0, U32MAX, 2, 1, 0, 0, 0, 1⟩]
    dirs := []
    names_blob := strB "/ra"
    ext_keys := [⟨0, 0, 1⟩]
    ext_postings_raw := [0]
    trigram_keys := []
    trigram_postings_raw := []
    dir_trigram_keys := []
    dir_trigram_postings_raw := []
    index_meta := some (0, 2) }

def c1Root : FsPath := ⟨true, [strB "r"]⟩

/-- A single walker record: regular file `/r/a.rs` with extension `rs`. -/
def c1Record : FileRecord :=
  { full_path := ⟨true, [strB "r", strB "a.rs"]⟩
    name := strB "a.rs"
    size := 10
    mtime_secs := 0
    ctime_secs := 0
    atime_secs := 0
    ext := some (strB "rs")
    is_dir := false
    is_symlink := false
    is_special := false
    in_trash := false
    ignored_glob := false
    hidden_os := false
    user_excludes := false }

def c1Staged : StagedIndex := buildStagedIndex c1Root [c1Record]

/-- The opened image of `c1Staged` as the writer and reader produce it:
section views copied verbatim, the extension table through its
NUL-separated encode/decode round trip. -/
def c1Index : Index :=
  { header_file_count := 1
    header_dir_count := 0
    ext_table := decode_ext_table (encode_ext_table c1Staged.ext_table)
    file_metas := c1Staged.files
    dirs := c1Staged.dirs
    names_blob := c1Staged.names_blob
    ext_keys := c1Staged.ext_index_keys
    ext_postings_raw := c1Staged.ext_index_postings
    trigram_keys := c1Staged.file_trigram_keys
    trigram_postings_raw := c1Staged.file_trigram_postings
    dir_trigram_keys := c1Staged.dir_trigram_keys
    dir_trigram_postings_raw := c1Staged.dir_trigram_postings
    index_meta := some (c1Staged.root_path_offset, c1Staged.root_path_len) }

/-- A directory record under root `/r` (for the posting-list claims). -/
def dirRecord (name : String) : FileRecord :=
  { full_path := ⟨true, [strB "r", strB name]⟩
    name := strB name
    size := 0
    mtime_secs := 0
    ctime_secs := 0
    atime_secs := 0
    ext := none
    is_dir := true
    is_symlink := false
    is_special := false
    in_trash := false
    ignored_glob := false
    hidden_os := false
    user_excludes := false }

/-- Two sibling top-level directories whose relative paths share the
trigram `abc`. -/
def c3Staged : StagedIndex :=
  buildStagedIndex ⟨true, [strB "r"]⟩ [dirRecord "abcd", dirRecord "abce"]

/-! ## Theorems

General helper lemmas first, then the claim theorems (one per claim) with
their witnesses. -/

theorem mem_sortNat {x : Nat} {l : List Nat} : x ∈ sortNat l ↔ x ∈ l :=
  (List.perm_insertionSort _ l).mem_iff

theorem mem_dedupAdjacent {x : Nat} : ∀ {l : List Nat}, x ∈ dedupAdjacent l ↔ x ∈ l
  | [] => Iff.rfl
  | [a] => Iff.rfl
  | a :: b :: rest => by
    simp only [dedupAdjacent]
    by_cases h : a = b
    · rw [if_pos h, mem_dedupAdjacent (l := b :: rest), h]
      simp
    · rw [if_neg h]
      simp [mem_dedupAdjacent (l := b :: rest)]

theorem extract_search_term_eq_nil {text : List Nat} (h : text.getLast? = some 47) :
    extract_search_term text = [] := by
  unfold extract_search_term
  have hh : text.reverse.head? = some 47 := by rwa [List.head?_reverse]
  match hr : text.reverse with
  | [] => simp [hr] at hh
  | b :: rest =>
    rw [hr] at hh
    simp at hh
    simp [hr, List.takeWhile, hh]

theorem build_trigrams_nil : build_trigrams_for_string [] = [] := rfl

theorem eval_text_base_empty_needle (r : Reader) (candidates : List Nat) :
    eval_text_base r [] [] candidates = candidates := by
  unfold eval_text_base
  by_cases h : candidates = []
  · simp [h]
  · rw [if_neg h, if_pos (Or.inl rfl)]
    unfold eval_text_linear_scan_with_paths
    simp

/-- C10: a text term whose text ends with `/` extracts an empty needle —
the substring after the last `/` — and `eval_text_term` then returns the
candidate set unchanged. -/
theorem claim_C10_trailing_slash_matches_all (r : Reader) (term : TextTerm)
    (candidates : List Nat) (h : term.text.getLast? = some 47) :
    eval_text_term r term candidates = candidates := by
  unfold eval_text_term
  rw [extract_search_term_eq_nil h]
  show eval_text_base r [] (build_trigrams_for_string []) candidates = candidates
  rw [build_trigrams_nil]
  exact eval_text_base_empty_needle r candidates

theorem claim_C10_witness :
    (TextTerm.mk (strB "commands/") false false).text.getLast? = some 47 ∧
    eval_text_term emptyReader (TextTerm.mk (strB "commands/") false false) [3, 7] = [3, 7] :=
  ⟨by decide, claim_C10_trailing_slash_matches_all emptyReader _ _ (by decide)⟩

theorem trigramWindows_sub_cons (b : Nat) (l : List Nat) :
    ∀ x ∈ trigramWindows l, x ∈ trigramWindows (b :: l) := by
  intro x hx
  match l with
  | [] => simp [trigramWindows] at hx
  | [a] => simp [trigramWindows] at hx
  | a :: c :: rest => exact List.mem_cons_of_mem _ hx

theorem queryStride_sub_windows :
    ∀ (l : List Nat), ∀ x ∈ queryStrideWindows l, x ∈ trigramWindows l
  | [], x, hx => by simp [queryStrideWindows] at hx
  | [a], x, hx => by simp [queryStrideWindows] at hx
  | [a, b], x, hx => by simp [queryStrideWindows] at hx
  | b0 :: b1 :: b2 :: rest, x, hx => by
    rcases List.mem_cons.1 hx with h | h
    · exact h ▸ List.mem_cons_self _ _
    · have ih := queryStride_sub_windows rest x h
      exact trigramWindows_sub_cons b0 _ _
        (trigramWindows_sub_cons b1 _ _ (trigramWindows_sub_cons b2 _ _ ih))

theorem window_mem : ∀ (l : List Nat) (i : Nat), i + 3 ≤ l.length →
    trigramFromBytes (l.getD i 0) (l.getD (i + 1) 0) (l.getD (i + 2) 0) ∈ trigramWindows l
  | a :: b :: c :: rest, 0, _ => by
    simp [trigramWindows, List.getD]
  | a :: rest, i + 1, h => by
    have h2 : i + 3 ≤ rest.length := by
      simp only [List.length_cons] at h
      omega
    have ih := window_mem rest i h2
    have hgd : ∀ j, (a :: rest).getD (j + 1) 0 = rest.getD j 0 := by
      intro j
      simp [List.getD]
    rw [hgd i, hgd (i + 1), hgd (i + 2)]
    exact trigramWindows_sub_cons a _ _ ih
  | [], 0, h => by simp at h
  | [a], 0, h => by simp at h
  | [a, b], 0, h => by simp at h

/-- C4: the query trigram set is a subset of the indexing trigram set for
every string (both are empty below three bytes). -/
theorem claim_C4_query_subset_of_indexing (s : List Nat) :
    ∀ t ∈ build_query_trigrams s, t ∈ build_trigrams_for_string s := by
  intro t ht
  unfold build_query_trigrams at ht
  unfold build_trigrams_for_string build_trigrams_for_bytes buildTrigramsFromNormalized
  set bytes := normalizeForTrigramBytes s with hbytes
  by_cases hlen : bytes.length < 3
  · rw [if_pos hlen] at ht
    simp at ht
  · rw [if_neg hlen] at ht ⊢
    rw [mem_dedupAdjacent, mem_sortNat] at ht ⊢
    by_cases hcond : bytes.length > 3 ∧ bytes.length % 3 ≠ 0
    · rw [if_pos hcond] at ht
      by_cases hlast : (queryStrideWindows bytes).getLast? ≠
          some (trigramFromBytes (bytes.getD (bytes.length - 3) 0)
            (bytes.getD (bytes.length - 3 + 1) 0) (bytes.getD (bytes.length - 3 + 2) 0))
      · rw [if_pos hlast] at ht
        rcases List.mem_append.1 ht with h | h
        · exact queryStride_sub_windows bytes t h
        · have hteq := List.mem_singleton.1 h
          subst hteq
          exact window_mem bytes (bytes.length - 3) (by omega)
      · rw [if_neg hlast] at ht
        exact queryStride_sub_windows bytes t ht
    · rw [if_neg hcond] at ht
      exact queryStride_sub_windows bytes t ht

theorem claim_C4_witness :
    trigramFromBytes 97 98 99 ∈ build_query_trigrams (strB "abcdefgh") ∧
    trigramFromBytes 97 98 99 ∈ build_trigrams_for_string (strB "abcdefgh") :=
  ⟨by decide, claim_C4_query_subset_of_indexing (strB "abcdefgh") _ (by decide)⟩

/-- C1: the claim is the stated intent (ExtId 0 reserved for "no
extension"), but `IndexBuilder::new` leaves `ext_table` empty, so
`intern_ext` hands the FIRST real extension the id `ext_table.len() = 0`.
Building over one record with extension `rs`: `intern_ext` returns 0, the
stored `FileMeta` carries `ext_id = 0`, and the reader — which treats 0
as "no extension" — reports the empty string instead of `rs` for that
file. -/
theorem claim_C1_first_ext_gets_id_zero :
    ((IndexBuilder.new c1Root).intern_ext (some (strB "rs"))).2 = 0 ∧
    c1Staged.ext_table = [strB "rs"] ∧
    c1Staged.files.map FileMeta.ext_id = [0] ∧
    c1Index.get_file_ext 0 = [] ∧
    strB "rs" ≠ [] :=
  ⟨rfl, rfl, rfl, rfl, by decide⟩

/-- C2: on a well-formed one-file index with a stored root path, every
scalar accessor returns its zero value for the out-of-range id 1, but
`reconstruct_full_path` hits the panicking slice index
`&metas[file_id]` in `reconstruct_relative_path` (modelled `none`)
instead of returning the empty string. -/
theorem claim_C2_reconstruct_full_path_panics :
    oneFileIndex.get_file_count = 1 ∧
    oneFileIndex.get_file_name 1 = [] ∧
    oneFileIndex.get_file_ext 1 = [] ∧
    oneFileIndex.get_file_size 1 = 0 ∧
    oneFileIndex.get_file_modified_epoch 1 = 0 ∧
    oneFileIndex.get_file_created_epoch 1 = 0 ∧
    oneFileIndex.get_file_noise_bits 1 = NoiseFlags.empty ∧
    oneFileIndex.get_file_path_depth 1 = 0 ∧
    oneFileIndex.reconstruct_full_path 1 = none := by
  decide

/-- C7: the bits-unit smartcase is exactly "ends in lowercase `b`, longer
than one byte, first byte ASCII uppercase", and the three size literals
evaluate as claimed (`1Mb` → 1 MiB of bits / 8 = 131072 bytes). -/
theorem claim_C7_size_smartcase :
    (∀ unit : List Nat, is_bits_unit unit = true ↔
      (unit.getLast? = some 98 ∧ 1 < unit.length ∧
        isAsciiUppercaseB (unit.headD 0) = true)) ∧
    parse_size (strB "1Mb") = some 131072 ∧
    parse_size (strB "1MB") = some 1048576 ∧
    parse_size (strB "8Kb") = some 1024 := by
  refine ⟨?_, by decide, by decide, by decide⟩
  intro unit
  unfold is_bits_unit
  match h : unit.getLast? with
  | none => simp
  | some last => simp [h]

end Blaze
